import Mathlib

/-!
Verification of the Triform CLI sync core (`triform_cli/sync/pull.py`,
`push.py`, `watch.py`) by shallow embedding.  Python values parsed from or
serialized to JSON are modelled by the ordered-key `PyJson` type (a mutual
inductive, so that all functions are structural and kernel-evaluable);
fallible code returns `Option`/`Except`.  Unicode-dependent Python
predicates (`str.isalnum`, `str.isspace`) are modelled by the ASCII
predicates `Char.isAlphanum` / `Char.isWhitespace`; all inputs exercised
below stay in the ASCII fragment where the two agree.
-/

namespace Triform

mutual
/-- Ordered JSON values as handled by Python `json`: object member order is
insertion order, mirroring Python 3 `dict` semantics.  Floats are outside
the modelled fragment (no claim involves them). -/
inductive PyJson where
  | null : PyJson
  | bool (b : Bool) : PyJson
  | int (n : Int) : PyJson
  | str (s : String) : PyJson
  | arr (xs : PyList) : PyJson
  | obj (kvs : PyObj) : PyJson

/-- A JSON array's elements. -/
inductive PyList where
  | nil : PyList
  | cons (x : PyJson) (xs : PyList) : PyList

/-- A JSON object's members, in insertion order. -/
inductive PyObj where
  | nil : PyObj
  | cons (k : String) (v : PyJson) (rest : PyObj) : PyObj
end

/-- Build a `PyList` from a Lean list. -/
def PyList.ofList : List PyJson → PyList
  | [] => .nil
  | x :: xs => .cons x (PyList.ofList xs)

/-- Build a `PyObj` from a Lean association list. -/
def PyObj.ofList : List (String × PyJson) → PyObj
  | [] => .nil
  | (k, v) :: rest => .cons k v (PyObj.ofList rest)

/-- JSON array literal helper. -/
def jarr (xs : List PyJson) : PyJson := .arr (PyList.ofList xs)

/-- JSON object literal helper. -/
def jobj (kvs : List (String × PyJson)) : PyJson := .obj (PyObj.ofList kvs)

namespace PyObj

/-- The members as a Lean association list (dict iteration order). -/
def toList : PyObj → List (String × PyJson)
  | .nil => []
  | .cons k v rest => (k, v) :: rest.toList

/-- `d.get(k)`: first (only, for parsed dicts) binding of `k`. -/
def get? : PyObj → String → Option PyJson
  | .nil, _ => none
  | .cons k0 v rest, k => if k0 = k then some v else rest.get? k

/-- `d[k] = v` on a Python dict: replace the value in place when the key
exists, else append the binding. -/
def insert : PyObj → String → PyJson → PyObj
  | .nil, k, v => .cons k v .nil
  | .cons k0 v0 rest, k, v =>
      if k0 = k then .cons k0 v rest else .cons k0 v0 (rest.insert k v)

/-- Whether the object has no members. -/
def isEmpty : PyObj → Bool
  | .nil => true
  | .cons _ _ _ => false

end PyObj

namespace PyJson

/-- Python truthiness of a JSON value (`if x:`). -/
def truthy : PyJson → Bool
  | .null => false
  | .bool b => b
  | .int n => n != 0
  | .str s => s != ""
  | .arr .nil => false
  | .arr (.cons _ _) => true
  | .obj kvs => !kvs.isEmpty

/-- `d.get(k)` on a JSON value; `none` when the key is absent or the value
is not an object (where Python would raise `AttributeError`, never reached
by the modelled inputs). -/
def get? : PyJson → String → Option PyJson
  | .obj kvs, k => kvs.get? k
  | _, _ => none

/-- `d.get(k, default)`. -/
def getD (v : PyJson) (k : String) (dflt : PyJson) : PyJson :=
  (v.get? k).getD dflt

/-- The string content of a JSON value, for values read into string
variables (`meta.get("name", ...)` and the like); non-strings are outside
the exercised inputs. -/
def asStr : PyJson → String
  | .str s => s
  | _ => ""

end PyJson

mutual
/-- Structural equality of JSON values, as Python `==` compares the
corresponding dict/list/scalar trees (used for dict key lookup). -/
def jsonBeq : PyJson → PyJson → Bool
  | .null, .null => true
  | .bool a, .bool b => a == b
  | .int a, .int b => a == b
  | .str a, .str b => a == b
  | .arr a, .arr b => jsonBeqL a b
  | .obj a, .obj b => jsonBeqO a b
  | _, _ => false

/-- Elementwise equality of JSON arrays. -/
def jsonBeqL : PyList → PyList → Bool
  | .nil, .nil => true
  | .cons x xs, .cons y ys => jsonBeq x y && jsonBeqL xs ys
  | _, _ => false

/-- Memberwise equality of JSON objects (order-sensitive, as the modelled
code only ever compares scalars here). -/
def jsonBeqO : PyObj → PyObj → Bool
  | .nil, .nil => true
  | .cons k v r, .cons k2 v2 r2 => k == k2 && jsonBeq v v2 && jsonBeqO r r2
  | _, _ => false
end

/-! ### Serialization: Python `json.dumps` -/

/-- Hex digit characters, lowercase, as Python's `%x` formatting uses. -/
def hexDigit (n : Nat) : Char :=
  ("0123456789abcdef".data).getD n '0'

/-- Four-digit lowercase hex, for `\uXXXX` escapes. -/
def hex4 (n : Nat) : String :=
  String.mk [hexDigit (n / 4096 % 16), hexDigit (n / 256 % 16),
             hexDigit (n / 16 % 16), hexDigit (n % 16)]

/-- JSON string-character escaping with `ensure_ascii=True` (the
`json.dumps` default): the named two-character escapes, `\uXXXX` for other
control characters and for all non-ASCII code points, a UTF-16 surrogate
pair above `0xFFFF`, as CPython emits. -/
def escapeChar (c : Char) : String :=
  if c = '"' then "\\\""
  else if c = '\\' then "\\\\"
  else if c = '\n' then "\\n"
  else if c = '\t' then "\\t"
  else if c = '\r' then "\\r"
  else if c.toNat = 8 then "\\b"
  else if c.toNat = 12 then "\\f"
  else if c.toNat < 32 then "\\u" ++ hex4 c.toNat
  else if c.toNat < 127 then String.singleton c
  else if c.toNat < 65536 then "\\u" ++ hex4 c.toNat
  else
    let v := c.toNat - 65536
    "\\u" ++ hex4 (55296 + v / 1024) ++ "\\u" ++ hex4 (56320 + v % 1024)

/-- The quoted JSON form of a string. -/
def quoteStr (s : String) : String :=
  "\"" ++ String.join (s.data.map escapeChar) ++ "\""

/-- Decimal rendering of an `Int`, as Python `str(int)` / JSON emit it. -/
def intRepr (n : Int) : String :=
  if n < 0 then "-" ++ Nat.repr n.natAbs else Nat.repr n.toNat

/-- Join a list of strings with a separator. -/
def joinSep (sep : String) : List String → String
  | [] => ""
  | [x] => x
  | x :: y :: xs => x ++ sep ++ joinSep sep (y :: xs)

mutual
/-- Python `json.dumps(value)` with default arguments: separators `", "`
and `": "`, insertion key order preserved (no `sort_keys`). -/
def dumps : PyJson → String
  | .null => "null"
  | .bool true => "true"
  | .bool false => "false"
  | .int n => intRepr n
  | .str s => quoteStr s
  | .arr xs => "[" ++ joinSep ", " (dumpsItems xs) ++ "]"
  | .obj kvs => "\x7b" ++ joinSep ", " (dumpsMembers kvs) ++ "\x7d"

/-- The rendered elements of an array. -/
def dumpsItems : PyList → List String
  | .nil => []
  | .cons x xs => dumps x :: dumpsItems xs

/-- The rendered `"key": value` members of an object. -/
def dumpsMembers : PyObj → List String
  | .nil => []
  | .cons k v rest => (quoteStr k ++ ": " ++ dumps v) :: dumpsMembers rest
end

/-- `n` levels of the two-space indent unit. -/
def indentUnit (n : Nat) : String :=
  String.mk (List.replicate (2 * n) ' ')

mutual
/-- Python `json.dumps(value, indent=2)` at nesting level `lvl`: item
separator `",\n"` plus indentation, key separator `": "`, empty containers
printed inline. -/
def dumpsInd : Nat → PyJson → String
  | _, .null => "null"
  | _, .bool true => "true"
  | _, .bool false => "false"
  | _, .int n => intRepr n
  | _, .str s => quoteStr s
  | _, .arr .nil => "[]"
  | lvl, .arr xs =>
      "[\n" ++ joinSep ",\n" (dumpsIndItems (lvl + 1) xs) ++
      "\n" ++ indentUnit lvl ++ "]"
  | _, .obj .nil => "{}"
  | lvl, .obj kvs =>
      "\x7b\n" ++ joinSep ",\n" (dumpsIndMembers (lvl + 1) kvs) ++
      "\n" ++ indentUnit lvl ++ "\x7d"

/-- Indented rendered elements of an array. -/
def dumpsIndItems : Nat → PyList → List String
  | _, .nil => []
  | lvl, .cons x xs => (indentUnit lvl ++ dumpsInd lvl x) :: dumpsIndItems lvl xs

/-- Indented rendered members of an object. -/
def dumpsIndMembers : Nat → PyObj → List String
  | _, .nil => []
  | lvl, .cons k v rest =>
      (indentUnit lvl ++ quoteStr k ++ ": " ++ dumpsInd lvl v) ::
        dumpsIndMembers lvl rest
end

/-- `json.dumps(value, indent=2)` as the pull writers call it. -/
def dumpsInd2 (v : PyJson) : String := dumpsInd 0 v

/-! ### SHA-256 (`hashlib.sha256`)

`compute_checksum` (pull.py:13) is the first 16 hex characters of the
SHA-256 digest of the UTF-8 encoding of its argument.  The algorithm is
embedded over `Nat` with explicit truncation to 32 bits. -/

/-- Truncate to a 32-bit word. -/
def w32 (n : Nat) : Nat := n % 4294967296

/-- Right-rotate a 32-bit word by `k` bits. -/
def rotr (k x : Nat) : Nat := x / 2 ^ k + x % 2 ^ k * 2 ^ (32 - k)

/-- Bitwise complement of a 32-bit word. -/
def compl32 (x : Nat) : Nat := 4294967295 - x

/-- SHA-256 `Ch(x,y,z)`. -/
def shaCh (x y z : Nat) : Nat := Nat.xor (Nat.land x y) (Nat.land (compl32 x) z)

/-- SHA-256 `Maj(x,y,z)`. -/
def shaMaj (x y z : Nat) : Nat :=
  Nat.xor (Nat.xor (Nat.land x y) (Nat.land x z)) (Nat.land y z)

/-- SHA-256 `Σ0`. -/
def bsig0 (x : Nat) : Nat := Nat.xor (Nat.xor (rotr 2 x) (rotr 13 x)) (rotr 22 x)

/-- SHA-256 `Σ1`. -/
def bsig1 (x : Nat) : Nat := Nat.xor (Nat.xor (rotr 6 x) (rotr 11 x)) (rotr 25 x)

/-- SHA-256 `σ0`. -/
def ssig0 (x : Nat) : Nat := Nat.xor (Nat.xor (rotr 7 x) (rotr 18 x)) (x / 8)

/-- SHA-256 `σ1`. -/
def ssig1 (x : Nat) : Nat := Nat.xor (Nat.xor (rotr 17 x) (rotr 19 x)) (x / 1024)

/-- The 64 SHA-256 round constants, in decimal. -/
def shaK : List Nat :=
  [1116352408, 1899447441, 3049323471, 3921009573, 961987163,
   1508970993, 2453635748, 2870763221, 3624381080, 310598401,
   607225278, 1426881987, 1925078388, 2162078206, 2614888103,
   3248222580, 3835390401, 4022224774, 264347078, 604807628,
   770255983, 1249150122, 1555081692, 1996064986, 2554220882,
   2821834349, 2952996808, 3210313671, 3336571891, 3584528711,
   113926993, 338241895, 666307205, 773529912, 1294757372,
   1396182291, 1695183700, 1986661051, 2177026350, 2456956037,
   2730485921, 2820302411, 3259730800, 3345764771, 3516065817,
   3600352804, 4094571909, 275423344, 430227734, 506948616,
   659060556, 883997877, 958139571, 1322822218, 1537002063,
   1747873779, 1955562222, 2024104815, 2227730452, 2361852424,
   2428436474, 2756734187, 3204031479, 3329325298]

/-- The SHA-256 initial hash value, in decimal. -/
def shaH0 : List Nat :=
  [1779033703, 3144134277, 1013904242, 2773480762,
   1359893119, 2600822924, 528734635, 1541459225]

/-- Big-endian 8-byte rendering of a (64-bit) number. -/
def be64 (n : Nat) : List Nat :=
  [n / 2 ^ 56 % 256, n / 2 ^ 48 % 256, n / 2 ^ 40 % 256, n / 2 ^ 32 % 256,
   n / 2 ^ 24 % 256, n / 2 ^ 16 % 256, n / 2 ^ 8 % 256, n % 256]

/-- SHA-256 message padding: append `0x80`, zeros to 56 mod 64, then the
bit length as 8 big-endian bytes. -/
def shaPad (msg : List Nat) : List Nat :=
  msg ++ 0x80 :: List.replicate ((64 + 55 - msg.length % 64) % 64) 0 ++
    be64 (8 * msg.length)

/-- Split into 64-byte blocks; the fuel (any bound on the block count,
callers pass the byte count) only pays for the recursion. -/
def chunks64 : Nat → List Nat → List (List Nat)
  | 0, _ => []
  | _ + 1, [] => []
  | fuel + 1, l => l.take 64 :: chunks64 fuel (l.drop 64)

/-- Combine bytes into big-endian 32-bit words. -/
def bytesToWords : List Nat → List Nat
  | a :: b :: c :: d :: rest =>
      (a * 2 ^ 24 + b * 2 ^ 16 + c * 2 ^ 8 + d) :: bytesToWords rest
  | _ => []

/-- Extend 16 message words to the 64-entry SHA-256 schedule. -/
def shaSchedule (w : List Nat) : List Nat :=
  (List.range 48).foldl
    (fun acc _ =>
      acc ++ [w32 (ssig1 (acc.getD (acc.length - 2) 0) +
                   acc.getD (acc.length - 7) 0 +
                   ssig0 (acc.getD (acc.length - 15) 0) +
                   acc.getD (acc.length - 16) 0)])
    w

/-- One SHA-256 round: `st` is the running `[a,b,c,d,e,f,g,h]`, `kw` the
round constant plus schedule word. -/
def shaRound (st : List Nat) (kw : Nat × Nat) : List Nat :=
  match st with
  | [a, b, c, d, e, f, g, h] =>
      let t1 := w32 (h + bsig1 e + shaCh e f g + kw.1 + kw.2)
      let t2 := w32 (bsig0 a + shaMaj a b c)
      [w32 (t1 + t2), a, b, c, w32 (d + t1), e, f, g]
  | _ => st

/-- Compress one 64-byte block into the running hash. -/
def shaBlock (h : List Nat) (block : List Nat) : List Nat :=
  let w := shaSchedule (bytesToWords block)
  let st := (shaK.zip w).foldl shaRound h
  (h.zip st).map (fun p => w32 (p.1 + p.2))

/-- The SHA-256 digest (32 bytes) of a byte string. -/
def sha256 (msg : List Nat) : List Nat :=
  let padded := shaPad msg
  let h := (chunks64 padded.length padded).foldl shaBlock shaH0
  (h.map (fun x =>
    [x / 2 ^ 24 % 256, x / 2 ^ 16 % 256, x / 2 ^ 8 % 256, x % 256])).foldr
    (fun a b => a ++ b) []

/-- Lowercase hex rendering of a byte string (`hexdigest`). -/
def bytesToHex (bs : List Nat) : String :=
  String.mk ((bs.map (fun b => [hexDigit (b / 16), hexDigit (b % 16)])).foldr
    (fun a b => a ++ b) [])

/-- UTF-8 encoding of one character (Python `str.encode()`). -/
def utf8Char (c : Char) : List Nat :=
  let n := c.toNat
  if n < 128 then [n]
  else if n < 2048 then [192 + n / 64, 128 + n % 64]
  else if n < 65536 then [224 + n / 4096, 128 + n / 64 % 64, 128 + n % 64]
  else [240 + n / 262144, 128 + n / 4096 % 64, 128 + n / 64 % 64, 128 + n % 64]

/-- UTF-8 encoding of a string. -/
def utf8Encode (s : String) : List Nat :=
  (s.data.map utf8Char).foldr (fun a b => a ++ b) []

/-- `compute_checksum` (pull.py:13-15):
`hashlib.sha256(content.encode()).hexdigest()[:16]`. -/
def compute_checksum (content : String) : String :=
  (bytesToHex (sha256 (utf8Encode content))).take 16

/-! ### Name sanitizers (pull.py:18-48) -/

/-- Python `str.isalnum`, modelled on its ASCII fragment. -/
def pyIsAlnum (c : Char) : Bool := c.isAlphanum

/-- Python `str.isspace` / bare `strip()` whitespace, modelled on its ASCII
fragment. -/
def pyIsSpace (c : Char) : Bool := c.isWhitespace

/-- One `str.replace(d ++ d, d)` pass: replace non-overlapping adjacent
pairs of `d`, scanning left to right. -/
def replaceDouble (d : Char) : List Char → List Char
  | [] => []
  | [c] => [c]
  | c1 :: c2 :: rest =>
      if c1 = d && c2 = d then d :: replaceDouble d rest
      else c1 :: replaceDouble d (c2 :: rest)

/-- Whether the string contains the two-character substring `d ++ d`. -/
def hasDouble (d : Char) : List Char → Bool
  | c1 :: c2 :: rest => (c1 = d && c2 = d) || hasDouble d (c2 :: rest)
  | _ => false

/-- The `while dd in safe: safe = safe.replace(dd, d)` loop.  Each pass
shortens a string that still contains the pair, so fuel equal to the
length always reaches the loop's exit condition. -/
def collapseLoop (d : Char) : Nat → List Char → List Char
  | 0, s => s
  | fuel + 1, s => if hasDouble d s then collapseLoop d fuel (replaceDouble d s) else s

/-- Python `str.strip()` (no argument): drop leading and trailing
whitespace. -/
def pyStrip (l : List Char) : List Char :=
  ((l.dropWhile pyIsSpace).reverse.dropWhile pyIsSpace).reverse

/-- Python `str.strip("_")`: drop leading and trailing underscores. -/
def pyStripUnderscore (l : List Char) : List Char :=
  ((l.dropWhile (· = '_')).reverse.dropWhile (· = '_')).reverse

/-- `sanitize_name` (pull.py:18-23): keep alphanumerics and `-`, `_`,
space; replace everything else by `_`; collapse repeated spaces; strip;
default `"unnamed"`. -/
def sanitize_name (name : String) : String :=
  let safe := name.data.map (fun c =>
    if pyIsAlnum c || c = '-' || c = '_' || c = ' ' then c else '_')
  let safe := collapseLoop ' ' safe.length safe
  let t := pyStrip safe
  if t.isEmpty then "unnamed" else String.mk t

/-- `sanitize_filename` (pull.py:26-31): keep alphanumerics and `-`, `_`;
replace everything else by `_`; collapse repeated underscores; strip
underscores; lowercase; default `"unnamed"`. -/
def sanitize_filename (name : String) : String :=
  let safe := name.data.map (fun c =>
    if pyIsAlnum c || c = '-' || c = '_' then c else '_')
  let safe := collapseLoop '_' safe.length safe
  let t := (pyStripUnderscore safe).map Char.toLower
  if t.isEmpty then "unnamed" else String.mk t

/-- The suffix-search loop of `get_unique_dir_name` (pull.py:42-48):
starting from `counter`, return the first `"{dirName} {counter}"` that is
neither reserved nor an existing directory.  `fsNames` models the parent
directory's existing entries (`(base_dir / name).exists()`).  The Python
loop runs until a free name is found, which a finite filesystem always
provides; fuel beyond the number of taken names is enough, and callers
supply it. -/
def uniqueLoop (fsNames existing : List String) (dirName : String) :
    Nat → Nat → String
  | 0, counter => dirName ++ " " ++ Nat.repr counter
  | fuel + 1, counter =>
      let u := dirName ++ " " ++ Nat.repr counter
      if existing.contains u || fsNames.contains u then
        uniqueLoop fsNames existing dirName fuel (counter + 1)
      else u

/-- `get_unique_dir_name` (pull.py:34-48): sanitize, then find a free
directory name, reserving it in `existing` (the caller's
`existing_dirs` set, modelled as a list of the added names). -/
def get_unique_dir_name (fsNames : List String) (name : String)
    (existing : List String) : String × List String :=
  let dirName := sanitize_name name
  if !existing.contains dirName && !fsNames.contains dirName then
    (dirName, existing ++ [dirName])
  else
    let u := uniqueLoop fsNames existing dirName
      (fsNames.length + existing.length + 2) 2
    (u, existing ++ [u])

/-! ### Parsing: Python `json.loads`

Recursive descent with a fuel argument paying for nesting and member
loops; `loads` passes the input length plus a constant, which every
consuming step keeps sufficient.  The modelled fragment has no floats: a
number followed by `.`/`e`/`E` fails, where Python would build a float. -/

/-- JSON whitespace skipping. -/
def skipWs (cs : List Char) : List Char :=
  cs.dropWhile (fun c => c = ' ' || c = '\t' || c = '\n' || c = '\r')

/-- Value of a hex digit character. -/
def hexVal (c : Char) : Option Nat :=
  if '0' ≤ c && c ≤ '9' then some (c.toNat - 48)
  else if 'a' ≤ c && c ≤ 'f' then some (c.toNat - 87)
  else if 'A' ≤ c && c ≤ 'F' then some (c.toNat - 55)
  else none

/-- Parse the body of a JSON string after the opening quote. -/
def parseStrBody : Nat → List Char → Option (List Char × List Char)
  | 0, _ => none
  | _ + 1, [] => none
  | fuel + 1, c :: rest =>
      if c = '"' then some ([], rest)
      else if c = '\\' then
        match rest with
        | [] => none
        | e :: rest2 =>
            let esc : Option (Char × List Char) :=
              if e = '"' then some ('"', rest2)
              else if e = '\\' then some ('\\', rest2)
              else if e = '/' then some ('/', rest2)
              else if e = 'b' then some (Char.ofNat 8, rest2)
              else if e = 'f' then some (Char.ofNat 12, rest2)
              else if e = 'n' then some ('\n', rest2)
              else if e = 'r' then some ('\r', rest2)
              else if e = 't' then some ('\t', rest2)
              else if e = 'u' then
                match rest2 with
                | h1 :: h2 :: h3 :: h4 :: rest3 =>
                    match hexVal h1, hexVal h2, hexVal h3, hexVal h4 with
                    | some a, some b, some c2, some d =>
                        some (Char.ofNat (a * 4096 + b * 256 + c2 * 16 + d), rest3)
                    | _, _, _, _ => none
                | _ => none
              else none
            match esc with
            | some (ch, rest3) =>
                match parseStrBody fuel rest3 with
                | some (tail, rem) => some (ch :: tail, rem)
                | none => none
            | none => none
      else if c.toNat < 32 then none
      else
        match parseStrBody fuel rest with
        | some (tail, rem) => some (c :: tail, rem)
        | none => none

/-- Parse a run of decimal digits. -/
def parseDigits : List Char → List Char × List Char
  | [] => ([], [])
  | c :: rest =>
      if '0' ≤ c && c ≤ '9' then
        let (ds, rem) := parseDigits rest
        (c :: ds, rem)
      else ([], c :: rest)

/-- Numeric value of a digit run. -/
def digitsToNat (ds : List Char) : Nat :=
  ds.foldl (fun a c => a * 10 + (c.toNat - 48)) 0

/-- Parse a JSON integer (sign and digits, JSON leading-zero rule).  A
following `.`/`e`/`E` would make a float, outside the modelled fragment. -/
def parseIntTok (cs : List Char) : Option (Int × List Char) :=
  let (neg, cs2) := match cs with
    | '-' :: rest => (true, rest)
    | _ => (false, cs)
  match parseDigits cs2 with
  | ([], _) => none
  | (ds, rem) =>
      if ds.length > 1 && ds.headD '0' = '0' then none
      else
        match rem with
        | c :: _ => if c = '.' || c = 'e' || c = 'E' then none
            else some (if neg then -(digitsToNat ds : Int) else (digitsToNat ds : Int), rem)
        | [] => some (if neg then -(digitsToNat ds : Int) else (digitsToNat ds : Int), rem)

mutual
/-- Parse one JSON value (after skipping leading whitespace). -/
def parseVal : Nat → List Char → Option (PyJson × List Char)
  | 0, _ => none
  | fuel + 1, cs =>
      match skipWs cs with
      | [] => none
      | c :: rest =>
          if c = '{' then parseObjBody fuel rest
          else if c = '[' then parseArrBody fuel rest
          else if c = '"' then
            match parseStrBody (rest.length + 1) rest with
            | some (chars, rem) => some (.str (String.mk chars), rem)
            | none => none
          else if c = 't' then
            match rest with
            | 'r' :: 'u' :: 'e' :: rem => some (.bool true, rem)
            | _ => none
          else if c = 'f' then
            match rest with
            | 'a' :: 'l' :: 's' :: 'e' :: rem => some (.bool false, rem)
            | _ => none
          else if c = 'n' then
            match rest with
            | 'u' :: 'l' :: 'l' :: rem => some (.null, rem)
            | _ => none
          else
            match parseIntTok (c :: rest) with
            | some (n, rem) => some (.int n, rem)
            | none => none

/-- Parse an object body after `{`: either `}` immediately, or members. -/
def parseObjBody : Nat → List Char → Option (PyJson × List Char)
  | 0, _ => none
  | fuel + 1, cs =>
      match skipWs cs with
      | '}' :: rem => some (.obj .nil, rem)
      | cs2 => parseMembers fuel cs2 .nil

/-- Parse `"key": value (, "key": value)* }` members, accumulating with
dict-insertion semantics. -/
def parseMembers : Nat → List Char → PyObj → Option (PyJson × List Char)
  | 0, _, _ => none
  | fuel + 1, cs, acc =>
      match skipWs cs with
      | '"' :: rest =>
          match parseStrBody (rest.length + 1) rest with
          | some (kchars, rem) =>
              match skipWs rem with
              | ':' :: rem2 =>
                  match parseVal fuel rem2 with
                  | some (v, rem3) =>
                      let acc2 := acc.insert (String.mk kchars) v
                      match skipWs rem3 with
                      | '}' :: rem4 => some (.obj acc2, rem4)
                      | ',' :: rem4 => parseMembers fuel rem4 acc2
                      | _ => none
                  | none => none
              | _ => none
          | none => none
      | _ => none

/-- Parse an array body after `[`: either `]` immediately, or items. -/
def parseArrBody : Nat → List Char → Option (PyJson × List Char)
  | 0, _ => none
  | fuel + 1, cs =>
      match skipWs cs with
      | ']' :: rem => some (.arr .nil, rem)
      | cs2 => parseItems fuel cs2

/-- Parse `value (, value)* ]` items. -/
def parseItems : Nat → List Char → Option (PyJson × List Char)
  | 0, _ => none
  | fuel + 1, cs =>
      match parseVal fuel cs with
      | some (v, rem) =>
          match skipWs rem with
          | ']' :: rem2 => some (jarr [v], rem2)
          | ',' :: rem2 =>
              match parseItems fuel rem2 with
              | some (.arr tail, rem3) => some (.arr (.cons v tail), rem3)
              | _ => none
          | _ => none
      | none => none
end

/-- Python `json.loads`: parse one value, reject trailing content; `none`
models a raised `json.JSONDecodeError`. -/
def loads (s : String) : Option PyJson :=
  match parseVal (s.data.length + 8) s.data with
  | some (v, rest) => if (skipWs rest).isEmpty then some v else none
  | none => none

/-! ### Local directory model

A directory is a list of named files with contents plus a list of named
subdirectories, both in filesystem enumeration order (the order `iterdir`
and `glob` yield). -/

mutual
/-- One directory: files and subdirectories in enumeration order. -/
inductive Dir where
  | node (files : List (String × String)) (dirs : DirList) : Dir

/-- Named subdirectories. -/
inductive DirList where
  | nil : DirList
  | cons (name : String) (d : Dir) (rest : DirList) : DirList
end

/-- The files of a directory. -/
def Dir.files : Dir → List (String × String)
  | .node fs _ => fs

/-- The subdirectories of a directory. -/
def Dir.subs : Dir → DirList
  | .node _ ds => ds

/-- Build a `DirList` from a Lean list. -/
def DirList.ofList : List (String × Dir) → DirList
  | [] => .nil
  | (n, d) :: rest => .cons n d (DirList.ofList rest)

/-- Directory literal helper. -/
def dir (files : List (String × String)) (dirs : List (String × Dir)) : Dir :=
  .node files (DirList.ofList dirs)

/-- Look up a subdirectory by name. -/
def DirList.find? : DirList → String → Option Dir
  | .nil, _ => none
  | .cons n d rest, name => if n = name then some d else rest.find? name

/-- Content of a named file, `none` when absent (`path.exists()` false). -/
def Dir.getFile? (d : Dir) (name : String) : Option String :=
  (d.files.lookup name)

/-- Whether a named file exists. -/
def Dir.hasFile (d : Dir) (name : String) : Bool :=
  (d.getFile? name).isSome

/-- The directory at a path below a root. -/
def dirAt : Dir → List String → Option Dir
  | d, [] => some d
  | d, n :: rest =>
      match d.subs.find? n with
      | some sub => dirAt sub rest
      | none => none

/-- The names of a sibling list, in order. -/
def dirNames : DirList → List String
  | .nil => []
  | .cons n _ rest => n :: dirNames rest

mutual
/-- Well-formedness of a modelled directory tree: sibling names are
unique at every level, as they are on a real filesystem. -/
def uniqNames : Dir → Bool
  | .node _ ds => uniqList ds

/-- `uniqNames` over a sibling list. -/
def uniqList : DirList → Bool
  | .nil => true
  | .cons name sub rest =>
      !(dirNames rest).contains name && uniqNames sub && uniqList rest
end

/-- `suffix.isSuffixOf` on strings (Python `str.endswith` / `*.ext`
globs). -/
def strEndsWith (s pat : String) : Bool :=
  pat.data.isSuffixOf s.data

/-- Python `str.startswith`. -/
def strStartsWith (s pat : String) : Bool :=
  pat.data.isPrefixOf s.data

/-- Substring test on char lists. -/
def listInfix (pat : List Char) : List Char → Bool
  | [] => pat.isEmpty
  | c :: rest => pat.isPrefixOf (c :: rest) || listInfix pat rest

/-- Python `in` on strings (substring test). -/
def strContains (s pat : String) : Bool :=
  listInfix pat.data s.data

/-- Python truthiness of an optional JSON value (`None` is falsy). -/
def optTruthy : Option PyJson → Bool
  | none => false
  | some v => v.truthy

/-! ### Push-side readers (push.py) -/

/-- `find_source_file` (push.py:13-18): the first `*.py` glob entry that
is not `__init__.py`, as `(name, content)`. -/
def find_source_file (d : Dir) : Option (String × String) :=
  d.files.find? (fun p => strEndsWith p.1 ".py" && p.1 != "__init__.py")

/-- `read_triform_json` (push.py:21-29): parse the identity sidecar,
swallowing `JSONDecodeError` (an unparseable sidecar reads as absent). -/
def read_triform_json (d : Dir) : Option PyJson :=
  match d.getFile? ".triform.json" with
  | some text => loads text
  | none => none

/-- `write_triform_json` (push.py:32-38): the sidecar file content written
for a newly created component. -/
def write_triform_json (component_id : PyJson) (comp_type : String) : String :=
  dumpsInd2 (jobj [("id", component_id), ("type", .str comp_type)])

/-- `detect_component_type` (push.py:41-51): structural kind inference as
a priority-ordered checklist. -/
def detect_component_type (d : Dir) : Option String :=
  if (find_source_file d).isSome then some "action"
  else if d.hasFile "settings.json" || d.hasFile "prompts.json" then some "agent"
  else if d.hasFile "io_nodes.json" then some "flow"
  else if d.hasFile "nodes.json" then some "flow"
  else none

/-- Parse a structured file that is `json.loads`ed without a guard: a
parse failure is a raised `JSONDecodeError` (`Except.error`), absence of
the file yields `none`. -/
def loadFileStrict (d : Dir) (name : String) : Except String (Option PyJson) :=
  match d.getFile? name with
  | some text =>
      match loads text with
      | some v => .ok (some v)
      | none => .error ("JSONDecodeError: " ++ name)
  | none => .ok none

/-- `io.json` handling shared by the readers (push.py:73-79 etc.):
`inputs`/`outputs` with `{}` defaults. -/
def readIo (d : Dir) : Except String (PyJson × PyJson) := do
  match ← loadFileStrict d "io.json" with
  | some io_data =>
      pure (io_data.getD "inputs" (jobj []), io_data.getD "outputs" (jobj []))
  | none => pure (jobj [], jobj [])

/-- `requirements.json` description handling shared by the readers
(push.py:81-85 etc.). -/
def readIntention (d : Dir) : Except String String := do
  match ← loadFileStrict d "requirements.json" with
  | some req_data => pure (req_data.getD "description" (.str "")).asStr
  | none => pure ""

/-- `read_action_folder` (push.py:54-102).  The folder's name is the
Python `action_dir.name`. -/
def read_action_folder (d : Dir) (name : String) :
    Except String (PyJson × PyJson × String) := do
  let source := match find_source_file d with
    | some (_, text) => text
    | none => ""
  let pip := match d.getFile? "pip_requirements.txt" with
    | some t => t
    | none => (d.getFile? "requirements.txt").getD ""
  let readme := (d.getFile? "readme.md").getD ""
  let (inputs, outputs) ← readIo d
  let intention ← readIntention d
  let meta := jobj [("name", .str name), ("intention", .str intention),
                    ("starred", .bool false)]
  let spec := jobj [("source", .str source), ("requirements", .str pip),
                    ("readme", .str readme), ("runtime", .str "python-3.13"),
                    ("inputs", inputs), ("outputs", outputs)]
  pure (meta, spec, compute_checksum source)

/-- `read_flow_folder` (push.py:105-150). -/
def read_flow_folder (d : Dir) (name : String) :
    Except String (PyJson × PyJson × String) := do
  let readme := (d.getFile? "readme.md").getD ""
  let (inputs, outputs) ← readIo d
  let nodes := (← loadFileStrict d "nodes.json").getD (jobj [])
  let io_nodes := (← loadFileStrict d "io_nodes.json").getD
    (jobj [("input", jobj [("x", .int 0), ("y", .int 0)]),
           ("output", jobj [("x", .int 0), ("y", .int 0)])])
  let intention ← readIntention d
  let meta := jobj [("name", .str name), ("intention", .str intention),
                    ("starred", .bool false)]
  let spec := jobj [("readme", .str readme), ("nodes", nodes),
                    ("outputs", outputs), ("inputs", inputs),
                    ("io_nodes", io_nodes)]
  pure (meta, spec, compute_checksum (dumps spec))

/-- `read_agent_folder` (push.py:153-208). -/
def read_agent_folder (d : Dir) (name : String) :
    Except String (PyJson × PyJson × String) := do
  let readme := (d.getFile? "readme.md").getD ""
  let (inputs, outputs) ← readIo d
  let nodes := (← loadFileStrict d "nodes.json").getD (jobj [])
  let prompts := (← loadFileStrict d "prompts.json").getD
    (jobj [("system", jarr []), ("user", jarr [])])
  let (model, settings) ← do
    match ← loadFileStrict d "settings.json" with
    | some settings_data =>
        pure (settings_data.getD "model" (.str "gemma-3-27b-it"),
              settings_data.getD "settings" (jobj []))
    | none => pure ((.str "gemma-3-27b-it" : PyJson), jobj [])
  let intention ← readIntention d
  let meta := jobj [("name", .str name), ("intention", .str intention),
                    ("starred", .bool false)]
  let spec := jobj [("readme", .str readme), ("model", model),
                    ("prompts", prompts), ("settings", settings),
                    ("nodes", nodes), ("inputs", inputs),
                    ("outputs", outputs)]
  pure (meta, spec, compute_checksum (dumps spec))

/-- `read_component_folder` (push.py:211-224): dispatch on the inferred
kind; unknown kinds return empty records. -/
def read_component_folder (d : Dir) (name : String) :
    Except String (PyJson × PyJson × String × String) := do
  match detect_component_type d with
  | some "action" =>
      let (meta, spec, checksum) ← read_action_folder d name
      pure (meta, spec, checksum, "action")
  | some "agent" =>
      let (meta, spec, checksum) ← read_agent_folder d name
      pure (meta, spec, checksum, "agent")
  | some "flow" =>
      let (meta, spec, checksum) ← read_flow_folder d name
      pure (meta, spec, checksum, "flow")
  | _ => pure (jobj [], jobj [], "", "")

/-- One discovered component: its path below the project root, the
sidecar identity if any, and the inferred kind. -/
structure Found where
  path : List String
  component_id : Option PyJson
  comp_type : String

mutual
/-- The body of `find_all_components.scan_dir` (push.py:236-256): entered
for a directory at recursion depth `depth`, returns immediately past depth
10, otherwise collects qualifying subdirectories in order, recursing only
into qualifying folders. -/
def scanDir : Dir → List String → Nat → List Found
  | .node _ ds, path, depth =>
      if depth > 10 then [] else scanItems ds path depth

/-- Iteration over one directory's entries inside `scan_dir`. -/
def scanItems : DirList → List String → Nat → List Found
  | .nil, _, _ => []
  | .cons name sub rest, path, depth =>
      (if strStartsWith name "." then []
       else if name = "triggers" then []
       else
         match detect_component_type sub with
         | some t =>
             let cid : Option PyJson :=
               match read_triform_json sub with
               | some td => if td.truthy then td.get? "id" else none
               | none => none
             ⟨path ++ [name], cid, t⟩ :: scanDir sub (path ++ [name]) (depth + 1)
         | none => []) ++
      scanItems rest path depth
end

/-- `find_all_components` (push.py:227-259). -/
def find_all_components (project_dir : Dir) : List Found :=
  scanDir project_dir [] 0

/-! ### Pull-side writers (pull.py)

A writer materializes one fetched component as a folder, returning the
chosen directory name, the caller's updated sibling reservation set, the
folder contents, the sync-state entry, and the node-key-path → folder-path
registrations for later modifier distribution.  The `reqApi` parameter
models `api.get_component_requirements` (`none` is `api=None`); the
filesystem-existence oracle models a pull into a clean target, so child
scopes start empty. -/

/-- The items of a JSON value when it is an object (`dict.items()`). -/
def PyJson.objItems : PyJson → List (String × PyJson)
  | .obj kvs => kvs.toList
  | _ => []

/-- `build_requirements_json` (pull.py:51-63). -/
def build_requirements_json (requirements : PyJson) (description : String) :
    PyJson :=
  let result : PyObj := if description != "" then
    PyObj.ofList [("description", .str description)] else .nil
  .obj ((["context", "userStories", "outcomes", "guidelines", "dependencies",
          "boundaries", "safety"]).foldl
    (fun acc key =>
      if (requirements.getD key .null).truthy then
        acc.insert key (requirements.getD key .null)
      else acc) result)

/-- The result of materializing one component. -/
structure Written where
  dirName : String
  existing : List String
  folder : Dir
  entry : PyJson
  nodeMap : List (String × List String)

/-- The `requirements` fetch shared by the writers (pull.py:163-168 etc.):
`{}` unless an API is present and the component id is truthy, with an
`APIError` or falsy response also giving `{}`. -/
def fetchRequirements (reqApi : Option (String → Except String PyJson))
    (component_id : PyJson) : PyJson :=
  match reqApi with
  | some f =>
      if component_id.truthy then
        match f component_id.asStr with
        | .ok v => if v.truthy then v else jobj []
        | .error _ => jobj []
      else jobj []
  | none => jobj []

/-- `write_action_folder` (pull.py:103-182). -/
def write_action_folder (reqApi : Option (String → Except String PyJson))
    (component : PyJson) (fsNames existing : List String)
    (parentPath : List String) (nodeKey : String) : Written :=
  let meta := component.getD "meta" (jobj [])
  let spec := component.getD "spec" (jobj [])
  let component_id := component.getD "id" (.str "")
  let name := (meta.getD "name" (.str "unnamed")).asStr
  let (dirName, existing2) := get_unique_dir_name fsNames name existing
  let path := parentPath ++ [dirName]
  let source := (spec.getD "source" (.str "")).asStr
  let pip := (spec.getD "requirements" (.str "")).asStr
  let readme0 := (spec.getD "readme" (.str "")).asStr
  let readme := if readme0 = "" then "# " ++ name ++ "\n" else readme0
  let inputs := spec.getD "inputs" (jobj [])
  let outputs := spec.getD "outputs" (jobj [])
  let intention := (meta.getD "intention" (.str "")).asStr
  let requirements := fetchRequirements reqApi component_id
  let req_json := build_requirements_json requirements intention
  let files :=
    (if source != "" then [(sanitize_filename name ++ ".py", source)] else []) ++
    (if !(pyStrip pip.data).isEmpty then [("pip_requirements.txt", pip)] else []) ++
    [("readme.md", readme)] ++
    (if inputs.truthy || outputs.truthy then
      [("io.json", dumpsInd2 (.obj (
        (if outputs.truthy then
          (if inputs.truthy then PyObj.ofList [("inputs", inputs)] else .nil).insert
            "outputs" outputs
         else
          (if inputs.truthy then PyObj.ofList [("inputs", inputs)] else .nil)))))]
     else []) ++
    (if req_json.truthy then [("requirements.json", dumpsInd2 req_json)] else [])
  { dirName := dirName
    existing := existing2
    folder := dir files []
    entry := jobj [("component_id", component_id), ("type", .str "action"),
                   ("dir", .str dirName),
                   ("checksum", .str (compute_checksum source)),
                   ("runtime", spec.getD "runtime" (.str "python-3.13")),
                   ("starred", meta.getD "starred" (.bool false))]
    nodeMap := if nodeKey != "" then [(nodeKey, path)] else [] }

/-- The type of the child-materializer a composite writer recurses with:
`(component, fsNames, existing, parentPath, nodeKey) → result`. -/
def WriteChild : Type :=
  PyJson → List String → List String → List String → String → Option Written

/-- `write_flow_folder` (pull.py:185-289).  The recursion into embedded
child payloads (`write_component_folder`) is passed in as `writeChild`, so
that the recursive knot is tied once, on fuel, in
`write_component_folder`. -/
def write_flow_folder (writeChild : WriteChild)
    (reqApi : Option (String → Except String PyJson)) (component : PyJson)
    (fsNames existing : List String) (parentPath : List String)
    (nodeKey : String) : Written :=
  let meta := component.getD "meta" (jobj [])
  let spec := component.getD "spec" (jobj [])
  let component_id := component.getD "id" (.str "")
  let name := (meta.getD "name" (.str "unnamed")).asStr
  let (dirName, existing2) := get_unique_dir_name fsNames name existing
  let path := parentPath ++ [dirName]
  let readme0 := (spec.getD "readme" (.str "")).asStr
  let readme := if readme0 = "" then "# " ++ name ++ "\n" else readme0
  let inputs := spec.getD "inputs" (jobj [])
  let outputs := spec.getD "outputs" (jobj [])
  let nodes := spec.getD "nodes" (jobj [])
  let nodes_clean : PyObj := (nodes.objItems).foldl
    (fun acc p =>
      acc.insert p.1 (jobj
        [("component_id", p.2.getD "component_id" .null),
         ("inputs", p.2.getD "inputs" (jobj [])),
         ("position", p.2.getD "position"
            (jobj [("x", .int 0), ("y", .int 0)])),
         ("loop", p.2.getD "loop" (jobj [("enabled", .bool false)]))]))
    .nil
  let nested_specs : List (String × PyJson) := (nodes.objItems).foldl
    (fun acc p =>
      match p.2.get? "spec" with
      | some sp => if sp.truthy then acc ++ [(p.1, sp)] else acc
      | none => acc) []
  let io_nodes := spec.getD "io_nodes" (jobj [])
  let intention := (meta.getD "intention" (.str "")).asStr
  let requirements := fetchRequirements reqApi component_id
  let req_json := build_requirements_json requirements intention
  let files :=
    [("readme.md", readme)] ++
    (if inputs.truthy || outputs.truthy then
      [("io.json", dumpsInd2 (.obj (
        (if outputs.truthy then
          (if inputs.truthy then PyObj.ofList [("inputs", inputs)] else .nil).insert
            "outputs" outputs
         else
          (if inputs.truthy then PyObj.ofList [("inputs", inputs)] else .nil)))))]
     else []) ++
    (if !nodes_clean.isEmpty then
      [("nodes.json", dumpsInd2 (.obj nodes_clean))] else []) ++
    (if io_nodes.truthy then [("io_nodes.json", dumpsInd2 io_nodes)] else []) ++
    (if req_json.truthy then [("requirements.json", dumpsInd2 req_json)] else [])
  let nested := nested_specs.foldl
    (fun (acc : List (String × Dir) × List String × List (String × List String)) p =>
      let full_key := if nodeKey != "" then nodeKey ++ "/" ++ p.1 else p.1
      match writeChild p.2 [] acc.2.1 path full_key with
      | some w => (acc.1 ++ [(w.dirName, w.folder)], w.existing, acc.2.2 ++ w.nodeMap)
      | none => acc)
    ([], [], [])
  { dirName := dirName
    existing := existing2
    folder := dir files nested.1
    entry := jobj [("component_id", component_id), ("type", .str "flow"),
                   ("dir", .str dirName),
                   ("checksum", .str (compute_checksum (dumps (.obj nodes_clean)))),
                   ("starred", meta.getD "starred" (.bool false))]
    nodeMap := (if nodeKey != "" then [(nodeKey, path)] else []) ++ nested.2.2 }

/-- `write_agent_folder` (pull.py:292-404). -/
def write_agent_folder (writeChild : WriteChild)
    (reqApi : Option (String → Except String PyJson)) (component : PyJson)
    (fsNames existing : List String) (parentPath : List String)
    (nodeKey : String) : Written :=
  let meta := component.getD "meta" (jobj [])
  let spec := component.getD "spec" (jobj [])
  let component_id := component.getD "id" (.str "")
  let name := (meta.getD "name" (.str "unnamed")).asStr
  let (dirName, existing2) := get_unique_dir_name fsNames name existing
  let path := parentPath ++ [dirName]
  let readme0 := (spec.getD "readme" (.str "")).asStr
  let readme := if readme0 = "" then "# " ++ name ++ "\n" else readme0
  let inputs := spec.getD "inputs" (jobj [])
  let outputs := spec.getD "outputs" (jobj [])
  let nodes := spec.getD "nodes" (jobj [])
  let nodes_clean : PyObj := (nodes.objItems).foldl
    (fun acc p =>
      acc.insert p.1 (jobj
        [("component_id", p.2.getD "component_id" .null),
         ("inputs", p.2.getD "inputs" (jobj [])),
         ("order", p.2.getD "order" (.int 0))]))
    .nil
  let nested_specs : List (String × PyJson) := (nodes.objItems).foldl
    (fun acc p =>
      match p.2.get? "spec" with
      | some sp => if sp.truthy then acc ++ [(p.1, sp)] else acc
      | none => acc) []
  let prompts := spec.getD "prompts" (jobj [])
  let model := spec.getD "model" (.str "")
  let settings := spec.getD "settings" (jobj [])
  let intention := (meta.getD "intention" (.str "")).asStr
  let requirements := fetchRequirements reqApi component_id
  let req_json := build_requirements_json requirements intention
  let files :=
    [("readme.md", readme)] ++
    (if inputs.truthy || outputs.truthy then
      [("io.json", dumpsInd2 (.obj (
        (if outputs.truthy then
          (if inputs.truthy then PyObj.ofList [("inputs", inputs)] else .nil).insert
            "outputs" outputs
         else
          (if inputs.truthy then PyObj.ofList [("inputs", inputs)] else .nil)))))]
     else []) ++
    (if !nodes_clean.isEmpty then
      [("nodes.json", dumpsInd2 (.obj nodes_clean))] else []) ++
    (if prompts.truthy &&
        ((prompts.getD "system" .null).truthy ||
         (prompts.getD "user" .null).truthy) then
      [("prompts.json", dumpsInd2 prompts)] else []) ++
    (if model.truthy || settings.truthy then
      [("settings.json", dumpsInd2 (.obj (
        if settings.truthy then
          (PyObj.ofList [("model", model)]).insert "settings" settings
        else PyObj.ofList [("model", model)])))]
     else []) ++
    (if req_json.truthy then [("requirements.json", dumpsInd2 req_json)] else [])
  let nested := nested_specs.foldl
    (fun (acc : List (String × Dir) × List String × List (String × List String)) p =>
      let full_key := if nodeKey != "" then nodeKey ++ "/" ++ p.1 else p.1
      match writeChild p.2 [] acc.2.1 path full_key with
      | some w => (acc.1 ++ [(w.dirName, w.folder)], w.existing, acc.2.2 ++ w.nodeMap)
      | none => acc)
    ([], [], [])
  { dirName := dirName
    existing := existing2
    folder := dir files nested.1
    entry := jobj [("component_id", component_id), ("type", .str "agent"),
                   ("dir", .str dirName),
                   ("checksum", .str (compute_checksum (dumps (.obj nodes_clean)))),
                   ("starred", meta.getD "starred" (.bool false))]
    nodeMap := (if nodeKey != "" then [(nodeKey, path)] else []) ++ nested.2.2 }

/-- `write_component_folder` (pull.py:407-426): dispatch on the resource
tag; an unknown resource writes nothing and returns `{}` (modelled
`none`, which callers skip, as `pull_project` skips falsy entries).  The
fuel pays for nesting depth only; callers supply any bound on it. -/
def write_component_folder :
    Nat → Option (String → Except String PyJson) → WriteChild
  | 0, _, _, _, _, _, _ => none
  | fuel + 1, reqApi, component, fsNames, existing, parentPath, nodeKey =>
      let resource := (component.getD "resource" (.str "")).asStr
      if resource = "action/v1" then
        some (write_action_folder reqApi component fsNames existing parentPath nodeKey)
      else if resource = "flow/v1" then
        some (write_flow_folder (write_component_folder fuel reqApi) reqApi
          component fsNames existing parentPath nodeKey)
      else if resource = "agent/v1" then
        some (write_agent_folder (write_component_folder fuel reqApi) reqApi
          component fsNames existing parentPath nodeKey)
      else none

/-! ### Modifier distribution (pull.py:429-458) -/

/-- Split a character list at a separator character, keeping empty
pieces, as Python `str.split` does with an explicit separator. -/
def splitOnChar (c : Char) : List Char → List (List Char)
  | [] => [[]]
  | x :: xs =>
      match splitOnChar c xs with
      | [] => [[]]
      | g :: gs => if x = c then [] :: g :: gs else (x :: g) :: gs

/-- Python `modifier_path.split("/")`. -/
def pySplitSlash (s : String) : List String :=
  (splitOnChar '/' s.data).map String.mk

/-- The prefix-matching loop of `distribute_modifiers` (pull.py:448-453):
`for i in range(len(parts), 0, -1)`, first (longest) slash-joined prefix
found in the node→folder map wins. -/
def resolveLoop (nodeMap : List (String × List String)) (parts : List String) :
    Nat → Option (List String)
  | 0 => none
  | i + 1 =>
      match nodeMap.lookup (joinSep "/" (parts.take (i + 1))) with
      | some f => some f
      | none => resolveLoop nodeMap parts i

/-- Target-folder resolution for one modifier path: exact match first,
then the descending prefix loop. -/
def resolveModTarget (nodeMap : List (String × List String))
    (modifier_path : String) : Option (List String) :=
  match nodeMap.lookup modifier_path with
  | some f => some f
  | none => resolveLoop nodeMap (pySplitSlash modifier_path)
      (pySplitSlash modifier_path).length

/-- `distribute_modifiers` (pull.py:429-458): for each binding, skip empty
lists, resolve a target folder, and write `modifiers.json` there when the
folder exists (`dirExists` models `target_folder.exists()`). -/
def distribute_modifiers (nodeMap : List (String × List String))
    (dirExists : List String → Bool) (modifiers : List (String × PyJson)) :
    List (List String × String) :=
  modifiers.foldl
    (fun acc p =>
      if !p.2.truthy then acc
      else
        match resolveModTarget nodeMap p.1 with
        | some f => if dirExists f then acc ++ [(f, dumpsInd2 p.2)] else acc
        | none => acc) []

/-! ### The push pipeline (push.py:262-495)

The Remote API is an oracle of responses; the calls a run makes are
collected as a trace.  `Except.error` models a Python exception escaping
the code (only `APIError` is ever caught by it, as branches of the
oracle's answer). -/

/-- A remote mutation issued by the push pipeline. -/
inductive ApiCall where
  | updateComponent (id meta spec : PyJson)
  | createComponent (resource : String) (meta spec : PyJson)
  | updateComponentRequirements (id req : PyJson)

/-- Oracle of remote responses: `.error` is a raised `APIError` (which the
push code catches), `.ok` the parsed response. -/
structure ApiOracle where
  updateComponent : PyJson → PyJson → PyJson → Except String Unit
  createComponent : String → PyJson → PyJson → Except String PyJson
  updateComponentRequirements : PyJson → PyJson → Except String Unit

/-- The trimmed action payload sent to the remote (push.py:284-290 and
316-322): schema fields are omitted for leaves. -/
def actionSpecToSend (spec : PyJson) : PyJson :=
  jobj [("source", spec.getD "source" (.str "")),
        ("requirements", spec.getD "requirements" (.str "")),
        ("readme", spec.getD "readme" (.str "")),
        ("runtime", spec.getD "runtime" (.str "python-3.13"))]

/-- `create_component` (push.py:262-298): read the folder, send a create,
return the new id (`none` on an unknown kind or an `APIError`). -/
def create_component (api : ApiOracle) (d : Dir) (name comp_type : String) :
    Except String (Option PyJson × List ApiCall) := do
  let (meta, spec, _, _) ← read_component_folder d name
  let resource :=
    if comp_type = "action" then "action/v1"
    else if comp_type = "flow" then "flow/v1"
    else if comp_type = "agent" then "agent/v1"
    else ""
  if resource = "" then pure (none, [])
  else
    let spec_to_send := if comp_type = "action" then actionSpecToSend spec else spec
    match api.createComponent resource meta spec_to_send with
    | .ok result => pure (result.get? "id", [.createComponent resource meta spec_to_send])
    | .error _ => pure (none, [.createComponent resource meta spec_to_send])

/-- `push_component` (push.py:301-329): read, compare checksums, update.
Returns `(updated, message, new_checksum)` plus the trace of calls. -/
def push_component (api : ApiOracle) (d : Dir) (name : String)
    (component_id : PyJson) (comp_type : String) (force : Bool)
    (stored_checksum : Option PyJson) :
    Except String ((Bool × String × Option String) × List ApiCall) := do
  let (meta, spec, new_checksum, _) ← read_component_folder d name
  if !force && optTruthy stored_checksum &&
      jsonBeq (.str new_checksum) (stored_checksum.getD .null) then
    pure ((false, "unchanged", some new_checksum), [])
  else
    let spec_to_send := if comp_type = "action" then actionSpecToSend spec else spec
    match api.updateComponent component_id meta spec_to_send with
    | .ok _ =>
        pure ((true, "updated", some new_checksum),
              [.updateComponent component_id meta spec_to_send])
    | .error e =>
        pure ((false, "error: " ++ e, none),
              [.updateComponent component_id meta spec_to_send])

/-- The `results` dict of `push_project` (push.py:371-377). -/
structure PushResults where
  updated : List String := []
  created : List String := []
  errors : List String := []
  skipped : List String := []
  new_components : List String := []

/-- State threaded through the component loop: the results, the sync-state
component map, the identity sidecars written, and the remote-call trace. -/
structure LoopSt where
  results : PushResults := {}
  sync_components : PyObj := .nil
  sidecars : List (List String × String) := []
  calls : List ApiCall := []

/-- Association-map insertion with Python `==` keys, for
`checksum_map[k] = v`. -/
def assocInsert (m : List (PyJson × PyJson)) (k v : PyJson) :
    List (PyJson × PyJson) :=
  if m.any (fun p => jsonBeq p.1 k) then
    m.map (fun p => if jsonBeq p.1 k then (p.1, v) else p)
  else m ++ [(k, v)]

/-- `checksum_map.get(k)`. -/
def assocFind (m : List (PyJson × PyJson)) (k : PyJson) : Option PyJson :=
  (m.find? (fun p => jsonBeq p.1 k)).map (fun p => p.2)

/-- The backwards-compat checksum map (push.py:414-417):
`{state.get("component_id"): state.get("checksum")}` over the sync-state
entries. -/
def build_checksum_map (components : PyObj) : List (PyJson × PyJson) :=
  components.toList.foldl
    (fun acc p => assocInsert acc (p.2.getD "component_id" .null)
      (p.2.getD "checksum" .null)) []

/-- The sync-state checksum write-back (push.py:441-444): set
`state["checksum"]` on the first entry whose `component_id` matches. -/
def update_state_checksum (components : PyObj) (component_id : PyJson)
    (ck : String) : PyObj :=
  match components with
  | .nil => .nil
  | .cons k v rest =>
      if jsonBeq (v.getD "component_id" .null) component_id then
        .cons k (.obj ((v.objItems.foldl (fun a q => PyObj.insert a q.1 q.2) .nil).insert
          "checksum" (.str ck))) rest
      else .cons k v (update_state_checksum rest component_id ck)

/-- The object with the `description` member removed
(`{k: v for k, v in d.items() if k != "description"}`). -/
def dropDescription (v : PyJson) : PyJson :=
  .obj (PyObj.ofList (v.objItems.filter (fun p => p.1 ≠ "description")))

/-- The body of the per-component loop of `push_project` (push.py:421-474)
for one discovered folder. -/
def processComponent (api : ApiOracle) (force create_new : Bool)
    (checksum_map : List (PyJson × PyJson)) (root : Dir) (st : LoopSt)
    (f : Found) : Except String LoopSt := do
  let rel_path := joinSep "/" f.path
  let d := (dirAt root f.path).getD (dir [] [])
  let name := f.path.getLastD ""
  if optTruthy f.component_id then
    let component_id := f.component_id.getD .null
    let stored := assocFind checksum_map component_id
    let ((updated, message, new_checksum), calls1) ←
      push_component api d name component_id f.comp_type force stored
    let st := { st with calls := st.calls ++ calls1 }
    let st :=
      if updated then
        { st with
            results.updated := st.results.updated ++ [rel_path]
            sync_components := update_state_checksum st.sync_components
              component_id (new_checksum.getD "") }
      else if strContains message "error" then
        { st with results.errors := st.results.errors ++ [rel_path ++ ": " ++ message] }
      else
        { st with results.skipped := st.results.skipped ++ [rel_path] }
    match d.getFile? "requirements.json" with
    | some txt =>
        match loads txt with
        | some comp_req_data =>
            let comp_requirements := dropDescription comp_req_data
            if comp_requirements.truthy then
              pure { st with calls := st.calls ++
                [.updateComponentRequirements component_id comp_requirements] }
            else pure st
        | none => throw "JSONDecodeError: requirements.json"
    | none => pure st
  else
    if create_new then
      let (newId, calls1) ← create_component api d name f.comp_type
      let st := { st with calls := st.calls ++ calls1 }
      if optTruthy newId then
        pure { st with
          results.created := st.results.created ++ [rel_path]
          sidecars := st.sidecars ++
            [(f.path, write_triform_json (newId.getD .null) f.comp_type)] }
      else
        pure { st with results.errors := st.results.errors ++ [rel_path ++ ": Failed to create"] }
    else
      pure { st with results.new_components := st.results.new_components ++ [rel_path] }

/-- The component phase of `push_project` (push.py:411-474): discover,
build the checksum map, process each folder in order. -/
def pushComponentsPhase (api : ApiOracle) (force create_new : Bool)
    (root : Dir) (sync_components : PyObj) : Except String LoopSt :=
  let components := find_all_components root
  let checksum_map := build_checksum_map sync_components
  components.foldlM (processComponent api force create_new checksum_map root)
    { sync_components := sync_components }

/-! ### The watcher's tracked file set (watch.py:28-64) -/

/-- `Path.glob` for the pattern fragment the watcher uses: `*`-prefixed
suffix patterns and literal names; returns matching file names in
enumeration order. -/
def Dir.glob (d : Dir) (pattern : String) : List String :=
  (d.files.map (fun p => p.1)).filter (fun n =>
    if strStartsWith pattern "*" then strEndsWith n (pattern.drop 1)
    else n = pattern)

/-- The component file patterns the watcher tracks (watch.py:50-61). -/
def trackedPatterns : List String :=
  ["*.py", "readme.md", "requirements.json", "pip_requirements.txt",
   "io.json", "nodes.json", "io_nodes.json", "prompts.json",
   "settings.json", "modifiers.json"]

mutual
/-- `Path.rglob("meta.json")`: paths of all files named `meta.json`, in
top-down enumeration order. -/
def rglobMeta : Dir → List String → List (List String)
  | .node files ds, path =>
      (files.filter (fun p => p.1 = "meta.json")).map (fun p => path ++ [p.1]) ++
      rglobMetaList ds path

/-- `rglobMeta` over sibling directories. -/
def rglobMetaList : DirList → List String → List (List String)
  | .nil, _ => []
  | .cons n d rest, path => rglobMeta d (path ++ [n]) ++ rglobMetaList rest path
end

/-- `FileWatcher._get_tracked_files` (watch.py:28-64): project-level
files, trigger files, and — for every folder holding a `meta.json` whose
path avoids `.triform` — the component file patterns next to it.  Paths
are relative to the project root (`str(meta_file)` is modelled by the
joined relative path). -/
def getTrackedFiles (root : Dir) : List (List String) :=
  (root.glob "*.env" ++ root.glob "readme.md" ++
    root.glob "requirements.json").map (fun n => [n]) ++
  (match root.subs.find? "triggers" with
   | some td => (td.glob "*.json").map (fun n => ["triggers", n])
   | none => []) ++
  (rglobMeta root []).foldl
    (fun acc mpath =>
      if strContains (joinSep "/" mpath) ".triform" then acc
      else
        let compPath := mpath.dropLast
        let cd := (dirAt root compPath).getD (dir [] [])
        acc ++ [mpath] ++
          trackedPatterns.foldl
            (fun a pat => a ++ (cd.glob pat).map (fun n => compPath ++ [n])) [])
    []

/-! ### Claim-level auxiliary definitions -/

/-- The decimal accumulator step used to read digits back. -/
def digitStep (a : Nat) (c : Char) : Nat := a * 10 + (c.toNat - 48)


/-- `n` successive materializer name assignments with the same raw name in
one sibling scope (each `write_*_folder` calls `get_unique_dir_name`
once): the assigned names and the final reservation set, starting from an
empty set. -/
def pullSiblingNames (fsNames : List String) (name : String) :
    Nat → List String × List String
  | 0 => ([], [])
  | n + 1 =>
      let st := pullSiblingNames fsNames name n
      let r := get_unique_dir_name fsNames name st.2
      (st.1 ++ [r.1], r.2)

/-- Decimal digit characters of a natural number, most significant first
(the semantics of the `Nat.toDigits` fuel loop behind `Nat.repr`); used
only in proofs. -/
def decDigits (n : Nat) : List Char :=
  if n < 10 then [Nat.digitChar n]
  else decDigits (n / 10) ++ [Nat.digitChar (n % 10)]
decreasing_by exact Nat.div_lt_self (by omega) (by omega)

mutual
/-- Spec-side discoverability predicate, written from the amended claim
C4: a relative path is discovered exactly when it is non-empty, every
folder along it (intermediate and final) is neither dot-prefixed nor
named `triggers` and has an inferable structural kind, and the folder
entered at recursion depth `depth` stays within the source's depth-10
recursion guard (nesting at most 11 below the root). -/
def discover : Dir → List String → Nat → Bool
  | .node _ ds, q, depth => if depth > 10 then false else discoverItems ds q depth

/-- `discover` over the sibling list: the head entry matches when its
name is the path's first segment and it qualifies; other entries are
tried by the disjunction (so duplicate names need no side condition). -/
def discoverItems : DirList → List String → Nat → Bool
  | .nil, _, _ => false
  | .cons _ _ _, [], _ => false
  | .cons name sub rest, n :: q2, depth =>
      (if n = name then
        if strStartsWith name "." then false
        else if name = "triggers" then false
        else
          match detect_component_type sub with
          | some _ => q2.isEmpty || discover sub q2 (depth + 1)
          | none => false
       else false) || discoverItems rest (n :: q2) depth
end

/-- The C4 counterexample layout: a qualifying action folder nested under
a structurally unrecognizable wrapper folder. -/
def c4Root : Dir :=
  dir [] [("wrapper", dir [("notes.txt", "n")] [("leaf", dir [("main.py", "x")] [])])]


/-- A remote oracle whose calls all succeed (create returns an empty
record). -/
def trivialOracle : ApiOracle :=
  ⟨fun _ _ _ => .ok (), fun _ _ _ => .ok (jobj []), fun _ _ => .ok ()⟩

/-- C1 fixture: a fetched flow component with one child reference. -/
def c1Component : PyJson := jobj
  [("id", .str "c-flow-1"),
   ("resource", .str "flow/v1"),
   ("meta", jobj [("name", .str "F"), ("intention", .str ""),
                  ("starred", .bool false)]),
   ("spec", jobj
     [("readme", .str ""),
      ("inputs", jobj []), ("outputs", jobj []),
      ("nodes", jobj [("n1", jobj [("component_id", .str "c-act-1")])]),
      ("io_nodes", jobj [])])]

/-- C1 fixture: the materialization `pull` produces for `c1Component`. -/
def c1Pull : Option Written := write_component_folder 2 none c1Component [] [] [] "n1"

/-- C1 fixture: the materialized folder. -/
def c1Folder : Dir := (c1Pull.map Written.folder).getD (dir [] [])

/-- C1 fixture: the project root right after the pull. -/
def c1Root : Dir := dir [] [("F", c1Folder)]

/-- C1 fixture: the sync state the pull persists (`components` keyed by
node key). -/
def c1Sync : PyObj := PyObj.ofList [("n1", (c1Pull.map Written.entry).getD .null)]

/-- C2 counterexample fixture: a flow folder whose children-definition
lists key `a` before `b`. -/
def c2DirA : Dir := dir [("nodes.json", "\x7b\"a\": 1, \"b\": 2\x7d")] []

/-- C2 counterexample fixture: the same content with the keys reordered
(`b` before `a`), no other difference. -/
def c2DirB : Dir := dir [("nodes.json", "\x7b\"b\": 2, \"a\": 1\x7d")] []

/-- C2 witness fixture: `c2DirA`'s content with only insignificant
whitespace changed. -/
def c2DirC : Dir := dir [("nodes.json", " \x7b\"a\":1,   \"b\":  2 \x7d ")] []

/-- C3 counterexample fixture: a tracked action folder whose `io.json` is
present but not JSON. -/
def c3Root : Dir :=
  dir [] [("X", dir [("main.py", "print(1)"), ("io.json", "\x7b"),
    (".triform.json", "\x7b\"id\": \"abc\", \"type\": \"action\"\x7d")] [])]

/-- C9 fixture: a fetched leaf component named `greet`. -/
def c9Component : PyJson := jobj
  [("id", .str "c-act-9"),
   ("resource", .str "action/v1"),
   ("meta", jobj [("name", .str "greet"), ("intention", .str "")]),
   ("spec", jobj [("source", .str "print(\x27hi\x27)"),
                  ("requirements", .str ""), ("readme", .str "")])]

/-- C9 fixture: the folder `pull` materializes for `greet`. -/
def c9Pull : Option Written := write_component_folder 2 none c9Component [] [] [] "greet"

/-- C9 fixture: the materialized folder. -/
def c9Folder : Dir := (c9Pull.map Written.folder).getD (dir [] [])

/-- C9 fixture: a pulled project root with its project-level files. -/
def c9Root : Dir :=
  dir [("proj.env", "e"), ("readme.md", "r"), ("requirements.json", "{}")]
    [("greet", c9Folder)]


/-! ## Helper lemmas -/

/-- Sanity check of the SHA-256 embedding against the FIPS 180 test vector
for `"abc"`. -/
theorem sha256_abc :
    bytesToHex (sha256 (utf8Encode "abc")) =
      "ba7816bf8f01cfea414140de5dae2223b00361a396177a9cb410ff61f20015ad" := by
  decide

/-- Parser sanity check: whitespace and member order are read as Python
reads them. -/
theorem loads_check :
    loads " \x7b\"b\" : [1, -2, \"x\"] , \"a\" : null \x7d " =
      some (jobj [("b", jarr [.int 1, .int (-2), .str "x"]), ("a", .null)]) := rfl


/-- The element a `dropWhile` result starts with fails the predicate. -/
theorem head?_dropWhile_not (p : Char → Bool) :
    ∀ (l : List Char) (a : Char), (l.dropWhile p).head? = some a → p a = false := by
  intro l
  induction l with
  | nil => intro a h; simp [List.dropWhile] at h
  | cons x xs ih =>
      intro a h
      by_cases hx : p x
      · rw [List.dropWhile_cons_of_pos hx] at h; exact ih a h
      · rw [List.dropWhile_cons_of_neg hx] at h
        simp at h
        rw [← h]
        simpa using hx

/-- `dropWhile` keeps a list whose head fails the predicate. -/
theorem dropWhile_of_head_not (p : Char → Bool) (l : List Char)
    (h : ∀ a, l.head? = some a → p a = false) : l.dropWhile p = l := by
  cases l with
  | nil => rfl
  | cons x xs =>
      have := h x rfl
      rw [List.dropWhile_cons_of_neg (by simp [this])]

/-- `replaceDouble` only contains characters of the input or the doubled
character itself. -/
theorem pred_replaceDouble (p : Char → Bool) (d : Char) (hp : p d = true) :
    ∀ l, (∀ c ∈ l, p c = true) → ∀ c ∈ replaceDouble d l, p c = true
  | [], _ => by simp [replaceDouble]
  | [c], h => by simpa [replaceDouble] using h
  | c1 :: c2 :: rest, h => by
      intro c hc
      by_cases hd : c1 = d && c2 = d
      · rw [replaceDouble, if_pos hd] at hc
        rcases List.mem_cons.mp hc with h1 | h1
        · exact h1 ▸ hp
        · exact pred_replaceDouble p d hp rest
            (fun x hx => h x (by simp [hx])) c h1
      · rw [replaceDouble, if_neg hd] at hc
        rcases List.mem_cons.mp hc with h1 | h1
        · exact h1 ▸ h c1 (by simp)
        · exact pred_replaceDouble p d hp (c2 :: rest)
            (fun x hx => h x (List.mem_cons_of_mem _ hx)) c h1

/-- `replaceDouble` never lengthens. -/
theorem length_replaceDouble_le (d : Char) :
    ∀ l, (replaceDouble d l).length ≤ l.length
  | [] => by simp [replaceDouble]
  | [c] => by simp [replaceDouble]
  | c1 :: c2 :: rest => by
      by_cases hd : c1 = d && c2 = d
      · rw [replaceDouble, if_pos hd]
        have := length_replaceDouble_le d rest
        simp only [List.length_cons]
        omega
      · rw [replaceDouble, if_neg hd]
        have := length_replaceDouble_le d (c2 :: rest)
        simp only [List.length_cons] at this ⊢
        omega

/-- `replaceDouble` shortens a string that still contains the pair. -/
theorem length_replaceDouble_lt (d : Char) :
    ∀ l, hasDouble d l = true → (replaceDouble d l).length < l.length
  | [], h => by simp [hasDouble] at h
  | [c], h => by simp [hasDouble] at h
  | c1 :: c2 :: rest, h => by
      by_cases hd : c1 = d && c2 = d
      · rw [replaceDouble, if_pos hd]
        have : (replaceDouble d rest).length ≤ rest.length :=
          length_replaceDouble_le d rest
        simp only [List.length_cons]
        omega
      · rw [replaceDouble, if_neg hd]
        rw [hasDouble] at h
        have h2 : hasDouble d (c2 :: rest) = true := by
          rcases Bool.or_eq_true_iff.mp h with h1 | h1
          · exact absurd h1 (by simpa using hd)
          · exact h1
        have := length_replaceDouble_lt d (c2 :: rest) h2
        simp only [List.length_cons] at this ⊢
        omega

/-- With fuel at least the length, the collapse loop reaches a state
without the doubled pair. -/
theorem collapseLoop_no_double (d : Char) :
    ∀ (fuel : Nat) (l : List Char), l.length ≤ fuel →
      hasDouble d (collapseLoop d fuel l) = false
  | 0, l, h => by
      have : l = [] := List.eq_nil_of_length_eq_zero (Nat.le_zero.mp h)
      subst this
      simp [collapseLoop, hasDouble]
  | fuel + 1, l, h => by
      rw [collapseLoop]
      by_cases hdd : hasDouble d l = true
      · rw [if_pos hdd]
        exact collapseLoop_no_double d fuel (replaceDouble d l)
          (by have := length_replaceDouble_lt d l hdd; omega)
      · rw [if_neg hdd]
        exact Bool.not_eq_true _ ▸ (Bool.eq_false_iff.mpr hdd)

/-- The collapse loop leaves a pair-free string unchanged. -/
theorem collapseLoop_of_no_double (d : Char) (fuel : Nat) (l : List Char)
    (h : hasDouble d l = false) : collapseLoop d fuel l = l := by
  cases fuel with
  | zero => rfl
  | succ fuel => rw [collapseLoop, if_neg (by simp [h])]

/-- The collapse loop only contains characters of the input or the doubled
character. -/
theorem pred_collapseLoop (p : Char → Bool) (d : Char) (hp : p d = true) :
    ∀ (fuel : Nat) (l : List Char), (∀ c ∈ l, p c = true) →
      ∀ c ∈ collapseLoop d fuel l, p c = true
  | 0, l, h => h
  | fuel + 1, l, h => by
      rw [collapseLoop]
      by_cases hdd : hasDouble d l = true
      · rw [if_pos hdd]
        exact pred_collapseLoop p d hp fuel (replaceDouble d l)
          (pred_replaceDouble p d hp l h)
      · rw [if_neg hdd]; exact h

/-- A doubled pair in the tail is a doubled pair. -/
theorem hasDouble_cons (d c : Char) (l : List Char)
    (h : hasDouble d l = true) : hasDouble d (c :: l) = true := by
  cases l with
  | nil => simp [hasDouble] at h
  | cons x xs => rw [hasDouble]; simp [h]

/-- A doubled pair survives prepending. -/
theorem hasDouble_append_left (d : Char) (pre l : List Char)
    (h : hasDouble d l = true) : hasDouble d (pre ++ l) = true := by
  induction pre with
  | nil => simpa using h
  | cons x xs ih => exact hasDouble_cons d x _ ih

/-- A doubled pair survives appending. -/
theorem hasDouble_append_right (d : Char) :
    ∀ (l post : List Char), hasDouble d l = true →
      hasDouble d (l ++ post) = true
  | [], _, h => by simp [hasDouble] at h
  | [c], _, h => by simp [hasDouble] at h
  | c1 :: c2 :: rest, post, h => by
      rw [hasDouble] at h
      rcases Bool.or_eq_true_iff.mp h with h1 | h1
      · show hasDouble d (c1 :: c2 :: (rest ++ post)) = true
        rw [hasDouble]; simp [h1]
      · show hasDouble d (c1 :: c2 :: (rest ++ post)) = true
        rw [hasDouble]
        have := hasDouble_append_right d (c2 :: rest) post h1
        simp only [List.cons_append] at this
        simp [this]

/-- The strip result decomposes its input as `ws-prefix ++ result ++
ws-suffix`. -/
theorem pyStrip_decomp (l : List Char) :
    ∃ w1 w2, l = w1 ++ pyStrip l ++ w2 := by
  refine ⟨l.takeWhile pyIsSpace,
    ((l.dropWhile pyIsSpace).reverse.takeWhile pyIsSpace).reverse, ?_⟩
  have hu : l.dropWhile pyIsSpace = pyStrip l ++
      ((l.dropWhile pyIsSpace).reverse.takeWhile pyIsSpace).reverse := by
    unfold pyStrip
    conv_lhs => rw [← List.reverse_reverse (l.dropWhile pyIsSpace)]
    rw [← List.reverse_append, List.takeWhile_append_dropWhile]
  calc l = l.takeWhile pyIsSpace ++ l.dropWhile pyIsSpace :=
        (List.takeWhile_append_dropWhile pyIsSpace l).symm
    _ = _ := by conv_lhs => rw [hu]
                rw [List.append_assoc]

/-- Stripping keeps only characters of the input. -/
theorem mem_pyStrip (l : List Char) (c : Char) (h : c ∈ pyStrip l) : c ∈ l := by
  obtain ⟨w1, w2, hd⟩ := pyStrip_decomp l
  rw [hd]
  simp [h]

/-- Stripping cannot introduce a doubled pair. -/
theorem hasDouble_pyStrip (d : Char) (l : List Char)
    (h : hasDouble d l = false) : hasDouble d (pyStrip l) = false := by
  by_contra hc
  obtain ⟨w1, w2, hd⟩ := pyStrip_decomp l
  have ht : hasDouble d (pyStrip l) = true := by
    cases hh : hasDouble d (pyStrip l) with
    | true => rfl
    | false => exact absurd hh hc
  have : hasDouble d l = true := by
    rw [hd, List.append_assoc]
    exact hasDouble_append_left d w1 _
      (hasDouble_append_right d (pyStrip l) w2 ht)
  rw [this] at h
  exact Bool.true_eq_false ▸ h

/-- A strip result does not start with whitespace. -/
theorem pyStrip_head (l : List Char) (a : Char)
    (h : (pyStrip l).head? = some a) : pyIsSpace a = false := by
  unfold pyStrip at h
  set u := l.dropWhile pyIsSpace with hu
  set v := u.reverse.dropWhile pyIsSpace with hv
  have hsplit : u.reverse = u.reverse.takeWhile pyIsSpace ++ v :=
    (List.takeWhile_append_dropWhile pyIsSpace _).symm
  have hu2 : u = v.reverse ++ (u.reverse.takeWhile pyIsSpace).reverse := by
    calc u = u.reverse.reverse := (List.reverse_reverse u).symm
      _ = (u.reverse.takeWhile pyIsSpace ++ v).reverse := by rw [← hsplit]
      _ = v.reverse ++ (u.reverse.takeWhile pyIsSpace).reverse := by
          rw [List.reverse_append]
  cases hvr : v.reverse with
  | nil => rw [hvr] at h; simp at h
  | cons x xs =>
      have hx : x = a := by rw [hvr] at h; simpa using h
      have : u.head? = some a := by
        rw [hu2, hvr, hx]; rfl
      exact head?_dropWhile_not pyIsSpace l a (hu ▸ this)

/-- A strip result does not end with whitespace. -/
theorem pyStrip_last (l : List Char) (a : Char)
    (h : (pyStrip l).getLast? = some a) : pyIsSpace a = false := by
  unfold pyStrip at h
  rw [List.getLast?_reverse] at h
  exact head?_dropWhile_not pyIsSpace _ a h

/-- Stripping an already-stripped string changes nothing. -/
theorem pyStrip_of_stripped (l : List Char)
    (hh : ∀ a, l.head? = some a → pyIsSpace a = false)
    (hl : ∀ a, l.getLast? = some a → pyIsSpace a = false) :
    pyStrip l = l := by
  unfold pyStrip
  rw [dropWhile_of_head_not pyIsSpace l hh]
  rw [dropWhile_of_head_not pyIsSpace l.reverse
    (fun a ha => hl a (by rwa [List.head?_reverse] at ha))]
  exact List.reverse_reverse l

/-- Well-formedness of every `sanitize_name` result: only allowed
characters, no doubled space, trimmed, non-empty. -/
theorem sanitize_props (s : String) :
    (∀ c ∈ (sanitize_name s).data,
      (pyIsAlnum c || c = '-' || c = '_' || c = ' ') = true) ∧
    hasDouble ' ' (sanitize_name s).data = false ∧
    (∀ a, (sanitize_name s).data.head? = some a → pyIsSpace a = false) ∧
    (∀ a, (sanitize_name s).data.getLast? = some a → pyIsSpace a = false) ∧
    (sanitize_name s).data ≠ [] := by
  unfold sanitize_name
  set mapped := s.data.map (fun c =>
    if pyIsAlnum c || c = '-' || c = '_' || c = ' ' then c else '_') with hmdef
  set t := pyStrip (collapseLoop ' ' mapped.length mapped) with htdef
  by_cases ht : t.isEmpty
  · rw [if_pos ht]
    refine ⟨by decide, by decide, by decide, by decide, by decide⟩
  · rw [if_neg ht]
    have hdata : (String.mk t).data = t := rfl
    have hmapped : ∀ c ∈ mapped, (pyIsAlnum c || c = '-' || c = '_' || c = ' ') = true := by
      intro c hc
      rw [hmdef] at hc
      obtain ⟨x, _, hx⟩ := List.mem_map.mp hc
      by_cases hk : (pyIsAlnum x || x = '-' || x = '_' || x = ' ') = true
      · rw [if_pos hk] at hx; rw [← hx]; exact hk
      · rw [if_neg hk] at hx; rw [← hx]; decide
    have hcoll : ∀ c ∈ collapseLoop ' ' mapped.length mapped,
        (pyIsAlnum c || c = '-' || c = '_' || c = ' ') = true :=
      pred_collapseLoop _ ' ' (by decide) mapped.length mapped hmapped
    have hnodd : hasDouble ' ' (collapseLoop ' ' mapped.length mapped) = false :=
      collapseLoop_no_double ' ' mapped.length mapped (Nat.le_refl _)
    refine ⟨?_, ?_, ?_, ?_, ?_⟩
    · intro c hc
      rw [hdata, htdef] at hc
      exact hcoll c (mem_pyStrip _ c hc)
    · rw [hdata, htdef]
      exact hasDouble_pyStrip ' ' _ hnodd
    · intro a ha
      rw [hdata, htdef] at ha
      exact pyStrip_head _ a ha
    · intro a ha
      rw [hdata, htdef] at ha
      exact pyStrip_last _ a ha
    · rw [hdata]
      intro hnil
      rw [hnil] at ht
      exact ht rfl

/-- A string that is already in sanitized form is a fixed point of
`sanitize_name`. -/
theorem sanitize_fixpoint (r : String)
    (hchar : ∀ c ∈ r.data, (pyIsAlnum c || c = '-' || c = '_' || c = ' ') = true)
    (hdd : hasDouble ' ' r.data = false)
    (hhead : ∀ a, r.data.head? = some a → pyIsSpace a = false)
    (hlast : ∀ a, r.data.getLast? = some a → pyIsSpace a = false)
    (hne : r.data ≠ []) : sanitize_name r = r := by
  unfold sanitize_name
  have hmap : r.data.map (fun c =>
      if pyIsAlnum c || c = '-' || c = '_' || c = ' ' then c else '_') = r.data := by
    have : ∀ c ∈ r.data, (fun c =>
        if pyIsAlnum c || c = '-' || c = '_' || c = ' ' then c else '_') c = id c := by
      intro c hc
      simp only [id]
      exact if_pos (hchar c hc)
    rw [List.map_congr_left this, List.map_id]
  dsimp only
  rw [hmap]
  rw [collapseLoop_of_no_double ' ' r.data.length r.data hdd]
  rw [pyStrip_of_stripped r.data hhead hlast]
  rw [if_neg (by simpa [List.isEmpty_iff] using hne)]

/-- Unfolding of the `Nat.toDigits` fuel loop with sufficient fuel. -/
theorem toDigitsCore_eq :
    ∀ (fuel n : Nat) (ds : List Char), n < fuel →
      Nat.toDigitsCore 10 fuel n ds = decDigits n ++ ds := by
  intro fuel
  induction fuel with
  | zero => intro n ds h; omega
  | succ fuel ih =>
      intro n ds h
      rw [Nat.toDigitsCore]
      by_cases h0 : n / 10 = 0
      · rw [if_pos h0]
        have hn : n < 10 := (Nat.div_eq_zero_iff (by omega)).mp h0
        rw [decDigits, if_pos hn, Nat.mod_eq_of_lt hn]
        rfl
      · rw [if_neg h0]
        have hge : 10 ≤ n := by
          by_contra hc
          exact h0 (Nat.div_eq_of_lt (by omega))
        have hlt : n / 10 < fuel := by omega
        rw [ih (n / 10) (Nat.digitChar (n % 10) :: ds) hlt]
        rw [show decDigits n = decDigits (n / 10) ++ [Nat.digitChar (n % 10)] from by
          rw [decDigits, if_neg (by omega)]]
        simp [List.append_assoc]

/-- Reading a digit character back. -/
theorem digitChar_val : ∀ m, m < 10 → (Nat.digitChar m).toNat - 48 = m := by
  decide

/-- Folding the decimal digits of `n` over any accumulator recovers `n`. -/
theorem decode_decDigits :
    ∀ (n a : Nat), (decDigits n).foldl digitStep a =
      a * 10 ^ (decDigits n).length + n := by
  intro n
  induction n using Nat.strong_induction_on with
  | _ n ih =>
      intro a
      by_cases hn : n < 10
      · rw [decDigits, if_pos hn]
        simp [digitStep, digitChar_val n hn]
      · rw [decDigits, if_neg hn]
        rw [List.foldl_append]
        rw [ih (n / 10) (Nat.div_lt_self (by omega) (by omega)) a]
        have hmod : n % 10 < 10 := Nat.mod_lt _ (by omega)
        have hdm : 10 * (n / 10) + n % 10 = n := Nat.div_add_mod n 10
        simp only [List.foldl_cons, List.foldl_nil, List.length_append,
          List.length_cons, List.length_nil, digitStep,
          digitChar_val (n % 10) hmod]
        have : (a * 10 ^ (decDigits (n / 10)).length + n / 10) * 10 + n % 10 =
            a * (10 ^ (decDigits (n / 10)).length * 10) +
              (10 * (n / 10) + n % 10) := by ring
        rw [this, hdm, ← pow_succ]

/-- `Nat.repr` is the digit list of `decDigits`. -/
theorem nat_repr_eq (n : Nat) : Nat.repr n = (decDigits n).asString := by
  rw [Nat.repr, Nat.toDigits, toDigitsCore_eq (n + 1) n [] (Nat.lt_succ_self n),
    List.append_nil]

/-- Strings with equal character data are equal. -/
theorem string_ext {s t : String} (h : s.data = t.data) : s = t :=
  congrArg String.mk h

/-- Decimal rendering of naturals is injective. -/
theorem nat_repr_inj {a b : Nat} (h : Nat.repr a = Nat.repr b) : a = b := by
  rw [nat_repr_eq, nat_repr_eq] at h
  have hdg : decDigits a = decDigits b := by
    have := congrArg String.data h
    simpa [List.asString] using this
  have da := decode_decDigits a 0
  have db := decode_decDigits b 0
  rw [hdg] at da
  rw [db] at da
  omega

/-- Appending distinct counters to the same stem gives distinct
candidates. -/
theorem cand_inj (N : String) {a b : Nat}
    (h : N ++ " " ++ Nat.repr a = N ++ " " ++ Nat.repr b) : a = b := by
  have hd := congrArg String.data h
  rw [String.data_append, String.data_append, String.data_append,
    String.data_append] at hd
  exact nat_repr_inj (string_ext (List.append_cancel_left hd))

/-- A suffixed candidate never equals the bare stem. -/
theorem cand_ne (N : String) (k : Nat) : N ++ " " ++ Nat.repr k ≠ N := by
  intro h
  have hd := congrArg String.data h
  rw [String.data_append, String.data_append] at hd
  have h2 := congrArg List.length hd
  simp only [List.length_append, List.length_singleton] at h2
  omega

/-- The suffix loop of `get_unique_dir_name` lands on the first free
candidate: if the candidates at offsets `0, …, j-1` are taken and the one
at offset `j` is free, the loop returns the latter. -/
theorem uniqueLoop_spec (fs ex : List String) (N : String) :
    ∀ (j fuel counter : Nat),
      (∀ i, i < j → (ex.contains (N ++ " " ++ Nat.repr (counter + i)) ||
        fs.contains (N ++ " " ++ Nat.repr (counter + i))) = true) →
      (ex.contains (N ++ " " ++ Nat.repr (counter + j)) ||
        fs.contains (N ++ " " ++ Nat.repr (counter + j))) = false →
      j < fuel →
      uniqueLoop fs ex N fuel counter = N ++ " " ++ Nat.repr (counter + j) := by
  intro j
  induction j with
  | zero =>
      intro fuel counter _ hfree hlt
      cases fuel with
      | zero => omega
      | succ fuel =>
          rw [uniqueLoop]
          rw [Nat.add_zero] at hfree
          rw [if_neg (by rw [hfree]; simp)]
          rw [Nat.add_zero]
  | succ j ih =>
      intro fuel counter htaken hfree hlt
      cases fuel with
      | zero => omega
      | succ fuel =>
          rw [uniqueLoop]
          rw [if_pos (by
            have := htaken 0 (by omega)
            rwa [Nat.add_zero] at this)]
          have hshift : ∀ i, i < j →
              (ex.contains (N ++ " " ++ Nat.repr (counter + 1 + i)) ||
                fs.contains (N ++ " " ++ Nat.repr (counter + 1 + i))) = true := by
            intro i hi
            rw [show counter + 1 + i = counter + (i + 1) from by omega]
            exact htaken (i + 1) (by omega)
          have hfree2 : (ex.contains (N ++ " " ++ Nat.repr (counter + 1 + j)) ||
              fs.contains (N ++ " " ++ Nat.repr (counter + 1 + j))) = false := by
            rw [show counter + 1 + j = counter + (j + 1) from by omega]
            exact hfree
          rw [ih fuel (counter + 1) hshift hfree2 (by omega)]
          rw [show counter + 1 + j = counter + (j + 1) from by omega]


/-- `List.contains` agrees with membership for strings. -/
theorem contains_iff_mem (l : List String) (a : String) :
    l.contains a = true ↔ a ∈ l :=
  List.elem_iff

/-- `List.contains` is `false` exactly off the list. -/
theorem contains_false_iff (l : List String) (a : String) :
    l.contains a = false ↔ a ∉ l := by
  constructor
  · intro h hmem
    have hc := (contains_iff_mem l a).mpr hmem
    rw [h] at hc
    exact Bool.false_ne_true hc
  · intro h
    cases hc : l.contains a with
    | false => rfl
    | true => exact absurd ((contains_iff_mem l a).mp hc) h

/-- Materializing `n ≥ 1` identically named siblings into an empty parent
assigns `N, N 2, …, N n` (where `N` is the sanitized name) and reserves
exactly those names. -/
theorem pullSiblingNames_spec (name : String) :
    ∀ n, 1 ≤ n →
      pullSiblingNames [] name n =
        (sanitize_name name :: (List.range' 2 (n - 1)).map
          (fun k => sanitize_name name ++ " " ++ Nat.repr k),
         sanitize_name name :: (List.range' 2 (n - 1)).map
          (fun k => sanitize_name name ++ " " ++ Nat.repr k)) := by
  intro n
  induction n with
  | zero => intro h; omega
  | succ n ih =>
      intro _
      by_cases hn : n = 0
      · subst hn
        simp [pullSiblingNames, get_unique_dir_name]
      · have hn1 : 1 ≤ n := by omega
        have IH := ih hn1
        rw [pullSiblingNames, IH]
        set N := sanitize_name name with hN
        set f : Nat → String := fun k => N ++ " " ++ Nat.repr k with hf
        set L := N :: (List.range' 2 (n - 1)).map f with hL
        have hLlen : L.length = n := by
          rw [hL]
          simp only [List.length_cons, List.length_map, List.length_range']
          omega
        have hmemN : N ∈ L := by rw [hL]; exact List.mem_cons_self _ _
        have hcont : L.contains N = true := (contains_iff_mem L N).mpr hmemN
        have htaken : ∀ i, i < n - 1 →
            (L.contains (N ++ " " ++ Nat.repr (2 + i)) ||
              ([] : List String).contains (N ++ " " ++ Nat.repr (2 + i))) = true := by
          intro i hi
          have hmem : N ++ " " ++ Nat.repr (2 + i) ∈ L := by
            rw [hL]
            refine List.mem_cons_of_mem _ (List.mem_map.mpr ⟨2 + i, ?_, rfl⟩)
            exact List.mem_range'_1.mpr ⟨by omega, by omega⟩
          rw [(contains_iff_mem _ _).mpr hmem]
          rfl
        have hfree : (L.contains (N ++ " " ++ Nat.repr (2 + (n - 1))) ||
            ([] : List String).contains (N ++ " " ++ Nat.repr (2 + (n - 1)))) = false := by
          have hnmem : N ++ " " ++ Nat.repr (2 + (n - 1)) ∉ L := by
            rw [hL]
            intro hmem
            rcases List.mem_cons.mp hmem with heq | hmap
            · exact cand_ne N (2 + (n - 1)) heq
            · obtain ⟨k, hk, he⟩ := List.mem_map.mp hmap
              have hk2 := List.mem_range'_1.mp hk
              have : k = 2 + (n - 1) := cand_inj N he
              omega
          rw [(contains_false_iff _ _).mpr hnmem]
          rfl
        have hloop := uniqueLoop_spec [] L N (n - 1)
          (([] : List String).length + L.length + 2) 2 htaken hfree
          (by simp [hLlen]; omega)
        have hstep : get_unique_dir_name [] name L =
            (N ++ " " ++ Nat.repr (n + 1), L ++ [N ++ " " ++ Nat.repr (n + 1)]) := by
          unfold get_unique_dir_name
          rw [← hN]
          rw [if_neg (by rw [hcont]; simp)]
          rw [hloop]
          rw [show 2 + (n - 1) = n + 1 from by omega]
        have hext : L ++ [N ++ " " ++ Nat.repr (n + 1)] =
            N :: (List.range' 2 n).map f := by
          rw [hL, List.cons_append]
          have h1 : (List.range' 2 (n - 1)).map f ++ [f (n + 1)] =
              (List.range' 2 (n - 1) ++ [2 + 1 * (n - 1)]).map f := by
            rw [List.map_append]
            rw [show 2 + 1 * (n - 1) = n + 1 from by omega]
            rfl
          rw [show (N ++ " " ++ Nat.repr (n + 1)) = f (n + 1) from rfl, h1,
            ← List.range'_concat]
          rw [show n - 1 + 1 = n from by omega]
        show ((L, L).1 ++ [(get_unique_dir_name [] name (L, L).2).1],
          (get_unique_dir_name [] name (L, L).2).2) = _
        rw [show ((L, L).1 : List String) = L from rfl,
          show ((L, L).2 : List String) = L from rfl, hstep]
        rw [show (N ++ " " ++ Nat.repr (n + 1),
            L ++ [N ++ " " ++ Nat.repr (n + 1)]).1 = N ++ " " ++ Nat.repr (n + 1) from rfl]
        rw [show (N ++ " " ++ Nat.repr (n + 1),
            L ++ [N ++ " " ++ Nat.repr (n + 1)]).2 =
          L ++ [N ++ " " ++ Nat.repr (n + 1)] from rfl]
        rw [hext]
        rw [show n + 1 - 1 = n from rfl]




/-- `discoverItems` rejects the empty path. -/
theorem discoverItems_nil_path (ds : DirList) (depth : Nat) :
    discoverItems ds [] depth = false := by
  cases ds <;> rfl

mutual
/-- The paths `scan_dir` discovers below `pfx` are exactly the
`discover`-able relative paths. -/
theorem scanDir_char : ∀ (d : Dir) (pfx : List String) (depth : Nat)
    (p : List String),
    (∃ f ∈ scanDir d pfx depth, Found.path f = p) ↔
      (∃ q, p = pfx ++ q ∧ discover d q depth = true)
  | .node fs ds, pfx, depth, p => by
      by_cases hd : depth > 10
      · simp only [scanDir, discover, if_pos hd]
        constructor
        · rintro ⟨f, hf, _⟩
          exact absurd hf (List.not_mem_nil f)
        · rintro ⟨q, _, hq⟩
          exact absurd hq (by simp)
      · simp only [scanDir, discover, if_neg hd]
        exact scanItems_char ds pfx depth p

/-- The per-entry counterpart of `scanDir_char`. -/
theorem scanItems_char : ∀ (ds : DirList) (pfx : List String) (depth : Nat)
    (p : List String),
    (∃ f ∈ scanItems ds pfx depth, Found.path f = p) ↔
      (∃ q, p = pfx ++ q ∧ discoverItems ds q depth = true)
  | .nil, pfx, depth, p => by
      simp [scanItems, discoverItems]
  | .cons name sub rest, pfx, depth, p => by
      have hrest := scanItems_char rest pfx depth p
      have hsub := scanDir_char sub (pfx ++ [name]) (depth + 1) p
      constructor
      · rintro ⟨f, hf, hp⟩
        rw [scanItems] at hf
        rcases List.mem_append.mp hf with hblock | hr
        · by_cases h1 : strStartsWith name "."
          · rw [if_pos h1] at hblock
            exact absurd hblock (List.not_mem_nil f)
          · rw [if_neg h1] at hblock
            by_cases h2 : name = "triggers"
            · rw [if_pos h2] at hblock
              exact absurd hblock (List.not_mem_nil f)
            · rw [if_neg h2] at hblock
              cases hdet : detect_component_type sub with
              | none =>
                  rw [hdet] at hblock
                  exact absurd hblock (List.not_mem_nil f)
              | some t =>
                  rw [hdet] at hblock
                  rcases List.mem_cons.mp hblock with hf1 | hf2
                  · refine ⟨[name], ?_, ?_⟩
                    · rw [← hp, hf1]
                    · rw [discoverItems, if_pos rfl, if_neg h1, if_neg h2, hdet]
                      simp
                  · obtain ⟨q2, hpq, hq2⟩ := hsub.mp ⟨f, hf2, hp⟩
                    refine ⟨name :: q2, ?_, ?_⟩
                    · rw [hpq]; simp
                    · rw [discoverItems, if_pos rfl, if_neg h1, if_neg h2, hdet,
                        hq2]
                      simp
        · obtain ⟨q, hpq, hq⟩ := hrest.mp ⟨f, hr, hp⟩
          refine ⟨q, hpq, ?_⟩
          cases q with
          | nil => rw [discoverItems_nil_path] at hq; exact absurd hq (by simp)
          | cons n q2 => rw [discoverItems, hq]; simp
      · rintro ⟨q, hpq, hq⟩
        cases q with
        | nil =>
            rw [discoverItems_nil_path] at hq
            exact absurd hq (by simp)
        | cons n q2 =>
            rw [discoverItems] at hq
            rcases Bool.or_eq_true_iff.mp hq with hA | hB
            · by_cases hn : n = name
              · rw [if_pos hn] at hA
                by_cases h1 : strStartsWith name "."
                · rw [if_pos h1] at hA; exact absurd hA (by simp)
                · rw [if_neg h1] at hA
                  by_cases h2 : name = "triggers"
                  · rw [if_pos h2] at hA; exact absurd hA (by simp)
                  · rw [if_neg h2] at hA
                    cases hdet : detect_component_type sub with
                    | none => rw [hdet] at hA; exact absurd hA (by simp)
                    | some t =>
                        rw [hdet] at hA
                        rcases Bool.or_eq_true_iff.mp hA with hE | hD
                        · have hq2 : q2 = [] := by
                            cases q2 with
                            | nil => rfl
                            | cons a b => simp [List.isEmpty] at hE
                          refine ⟨⟨pfx ++ [name],
                            (match read_triform_json sub with
                             | some td => if td.truthy then td.get? "id" else none
                             | none => none), t⟩, ?_, ?_⟩
                          · rw [scanItems]
                            refine List.mem_append.mpr (Or.inl ?_)
                            rw [if_neg h1, if_neg h2, hdet]
                            exact List.mem_cons_self _ _
                          · rw [hpq, hn, hq2]
                        · obtain ⟨f, hf, hfp⟩ := hsub.mpr
                            ⟨q2, by rw [hpq, hn]; simp, hD⟩
                          refine ⟨f, ?_, hfp⟩
                          rw [scanItems]
                          refine List.mem_append.mpr (Or.inl ?_)
                          rw [if_neg h1, if_neg h2, hdet]
                          exact List.mem_cons_of_mem _ hf
              · rw [if_neg hn] at hA
                exact absurd hA (by simp)
            · obtain ⟨f, hf, hfp⟩ := hrest.mpr ⟨n :: q2, hpq, hB⟩
              refine ⟨f, ?_, hfp⟩
              rw [scanItems]
              exact List.mem_append.mpr (Or.inr hf)
end



/-- `find?` succeeds exactly when `any` holds. -/
theorem find?_isSome_eq_any (p : String × String → Bool) :
    ∀ l : List (String × String), (l.find? p).isSome = l.any p := by
  intro l
  induction l with
  | nil => rfl
  | cons x xs ih =>
      rw [List.find?, List.any_cons]
      cases hx : p x with
      | true => rfl
      | false => simpa using ih




/-- The prefix loop finds nothing when no prefix is mapped. -/
theorem resolveLoop_none (m : List (String × List String))
    (parts : List String) :
    ∀ i, (∀ k, 1 ≤ k → k ≤ i → m.lookup (joinSep "/" (parts.take k)) = none) →
      resolveLoop m parts i = none := by
  intro i
  induction i with
  | zero => intro _; rfl
  | succ i ih =>
      intro h
      rw [resolveLoop, h (i + 1) (by omega) (by omega)]
      exact ih (fun k hk1 hk2 => h k hk1 (by omega))

/-- The prefix loop returns the longest mapped prefix: if the non-trivial
prefix of length `j` is mapped and every longer one up to `i` is not, the
loop from `i` yields `j`'s folder. -/
theorem resolveLoop_found (m : List (String × List String))
    (parts : List String) (j : Nat) (fld : List String) (hj1 : 1 ≤ j)
    (hfound : m.lookup (joinSep "/" (parts.take j)) = some fld) :
    ∀ i, j ≤ i →
      (∀ k, j < k → k ≤ i → m.lookup (joinSep "/" (parts.take k)) = none) →
      resolveLoop m parts i = some fld := by
  intro i
  induction i with
  | zero => intro hji _; omega
  | succ i ih =>
      intro hji habove
      rw [resolveLoop]
      by_cases hij : j = i + 1
      · subst hij
        rw [hfound]
      · rw [habove (i + 1) (by omega) (by omega)]
        exact ih (by omega) (fun k hk1 hk2 => habove k hk1 (by omega))



/-- A successful sibling lookup means the name occurs in the list. -/
theorem find?_some_mem : ∀ (ds : DirList) (n : String) (s : Dir),
    ds.find? n = some s → n ∈ dirNames ds
  | .nil, n, s => by intro h; exact absurd h (by simp [DirList.find?])
  | .cons m d rest, n, s => by
      intro h
      rw [DirList.find?] at h
      by_cases hm : m = n
      · rw [dirNames, hm]
        exact List.mem_cons_self _ _
      · rw [if_neg hm] at h
        exact List.mem_cons_of_mem _ (find?_some_mem rest n s h)

mutual
/-- In a well-formed tree, every discovered entry's path leads (via
`dirAt`) to a folder whose inferred structural kind is exactly the
reported kind. -/
theorem scanDir_found_folder : ∀ (d : Dir) (pfx : List String) (depth : Nat)
    (f : Found), uniqNames d = true → f ∈ scanDir d pfx depth →
      ∃ (q : List String) (sub : Dir), f.path = pfx ++ q ∧
        dirAt d q = some sub ∧ detect_component_type sub = some f.comp_type
  | .node fs ds, pfx, depth, f => by
      intro hu hf
      rw [scanDir] at hf
      by_cases hd : depth > 10
      · rw [if_pos hd] at hf
        exact absurd hf (List.not_mem_nil f)
      · rw [if_neg hd] at hf
        have hu2 : uniqList ds = true := by rwa [uniqNames] at hu
        obtain ⟨n, q2, sub, hpath, hmat, hdet⟩ :=
          scanItems_found_folder ds pfx depth f hu2 hf
        exact ⟨n :: q2, sub, hpath, hmat, hdet⟩

/-- The per-entry counterpart of `scanDir_found_folder`. -/
theorem scanItems_found_folder : ∀ (ds : DirList) (pfx : List String)
    (depth : Nat) (f : Found), uniqList ds = true → f ∈ scanItems ds pfx depth →
      ∃ (n : String) (q2 : List String) (sub : Dir),
        f.path = pfx ++ n :: q2 ∧
        (match ds.find? n with
         | some s => dirAt s q2
         | none => none) = some sub ∧
        detect_component_type sub = some f.comp_type
  | .nil, _, _, f => by
      intro _ hf
      exact absurd hf (List.not_mem_nil f)
  | .cons name sub rest, pfx, depth, f => by
      intro hu hf
      have hu3 : (!(dirNames rest).contains name && uniqNames sub &&
          uniqList rest) = true := by rwa [uniqList] at hu
      have hname : (dirNames rest).contains name = false := by
        rcases Bool.and_eq_true_iff.mp hu3 with ⟨h1, _⟩
        rcases Bool.and_eq_true_iff.mp h1 with ⟨h2, _⟩
        simpa using h2
      have hsubu : uniqNames sub = true := by
        rcases Bool.and_eq_true_iff.mp hu3 with ⟨h1, _⟩
        exact (Bool.and_eq_true_iff.mp h1).2
      have hrestu : uniqList rest = true :=
        (Bool.and_eq_true_iff.mp hu3).2
      rw [scanItems] at hf
      rcases List.mem_append.mp hf with hblock | hrestm
      · by_cases h1 : strStartsWith name "."
        · rw [if_pos h1] at hblock
          exact absurd hblock (List.not_mem_nil f)
        · rw [if_neg h1] at hblock
          by_cases h2 : name = "triggers"
          · rw [if_pos h2] at hblock
            exact absurd hblock (List.not_mem_nil f)
          · rw [if_neg h2] at hblock
            cases hdet : detect_component_type sub with
            | none =>
                rw [hdet] at hblock
                exact absurd hblock (List.not_mem_nil f)
            | some t =>
                rw [hdet] at hblock
                rcases List.mem_cons.mp hblock with hf1 | hf2
                · refine ⟨name, [], sub, by rw [hf1], ?_, by rw [hf1, hdet]⟩
                  rw [DirList.find?, if_pos rfl]
                  rfl
                · obtain ⟨q, sub2, hpath, hat, hdet2⟩ :=
                    scanDir_found_folder sub (pfx ++ [name]) (depth + 1) f
                      hsubu hf2
                  refine ⟨name, q, sub2, by rw [hpath]; simp, ?_, hdet2⟩
                  rw [DirList.find?, if_pos rfl]
                  exact hat
      · obtain ⟨n, q2, sub2, hpath, hmat, hdet2⟩ :=
          scanItems_found_folder rest pfx depth f hrestu hrestm
        refine ⟨n, q2, sub2, hpath, ?_, hdet2⟩
        cases hfind : rest.find? n with
        | none => rw [hfind] at hmat; exact absurd hmat (by simp)
        | some s1 =>
            rw [hfind] at hmat
            have hnn : ¬ name = n := by
              intro he
              have hmem := find?_some_mem rest n s1 hfind
              rw [← he] at hmem
              exact (contains_false_iff _ _).mp hname hmem
            rw [DirList.find?, if_neg hnn, hfind]
            exact hmat
end


/-! ## Claims -/

/-- C6: Collision resolution — materializing `n ≥ 1` sibling components
whose raw names all sanitize to the same `N` into a parent with no
pre-existing subdirectories and an initially empty reserved-name set
assigns the directory names `N, N 2, N 3, …` in order; in particular the
n-th sibling receives `"N n"` for every `n ≥ 2` (`List.range' 2 (n-1)`
is `[2, …, n]`). -/
theorem c6_collision_resolution (name : String) (n : Nat) (h : 1 ≤ n) :
    (pullSiblingNames [] name n).1 =
      sanitize_name name :: (List.range' 2 (n - 1)).map
        (fun k => sanitize_name name ++ " " ++ Nat.repr k) := by
  rw [pullSiblingNames_spec name n h]

/-- Witness for C6 at the claim's concrete instance: three siblings named
`"Step"` yield `Step`, `Step 2`, `Step 3`. -/
theorem c6_collision_resolution_witness :
    1 ≤ 3 ∧ (pullSiblingNames [] "Step" 3).1 = ["Step", "Step 2", "Step 3"] :=
  ⟨by decide, by rw [c6_collision_resolution "Step" 3 (by decide)]; rfl⟩

/-- C10: `sanitize_name` is idempotent; its output is non-empty, contains
only alphanumerics, hyphen, underscore and single (non-repeated) spaces,
and has no leading or trailing whitespace.  (Python's Unicode
`isalnum`/`isspace` are modelled by their ASCII counterparts.) -/
theorem c10_sanitize_name_wellformed (s : String) :
    sanitize_name (sanitize_name s) = sanitize_name s ∧
    sanitize_name s ≠ "" ∧
    (∀ c ∈ (sanitize_name s).data,
      pyIsAlnum c = true ∨ c = '-' ∨ c = '_' ∨ c = ' ') ∧
    hasDouble ' ' (sanitize_name s).data = false ∧
    (∀ a, (sanitize_name s).data.head? = some a → pyIsSpace a = false) ∧
    (∀ a, (sanitize_name s).data.getLast? = some a → pyIsSpace a = false) := by
  obtain ⟨hchar, hdd, hh, hl, hne⟩ := sanitize_props s
  refine ⟨sanitize_fixpoint _ hchar hdd hh hl hne, ?_, ?_, hdd, hh, hl⟩
  · intro h
    exact hne (congrArg String.data h)
  · intro c hc
    have hb := hchar c hc
    simp only [Bool.or_eq_true, decide_eq_true_eq] at hb
    tauto



/-- C4 counterexample: the folder `wrapper/leaf` structurally qualifies as
a component (it holds a non-`__init__` Python source), sits below the
project root, yet push discovery returns nothing, because `scan_dir` only
recurses into folders that themselves qualify — `wrapper` does not.  This
refutes the claim that every structurally qualifying folder is returned at
any nesting depth. -/
theorem c4_unbounded_depth_counterexample :
    detect_component_type (dir [("main.py", "x")] []) = some "action" ∧
    dirAt c4Root ["wrapper", "leaf"] = some (dir [("main.py", "x")] []) ∧
    find_all_components c4Root = [] :=
  ⟨rfl, rfl, rfl⟩

/-- C4 (amended): push discovery returns exactly the folders whose whole
chain from the root qualifies: every folder along the path (intermediate
and final) is non-dot, not named `triggers`, and has an inferable
structural kind, and the folder lies at most 11 levels below the root
(the `depth > 10` recursion guard).  `discover` is the spec-side
formalization of that amended sentence. -/
theorem c4_discovery_characterization (root : Dir) (p : List String) :
    (∃ f ∈ find_all_components root, Found.path f = p) ↔
      discover root p 0 = true := by
  have h := scanDir_char root [] 0 p
  simpa [find_all_components] using h

/-- Witness for C4 (amended) at a concrete one-folder project. -/
theorem c4_discovery_characterization_witness :
    ∃ f ∈ find_all_components (dir [] [("A", dir [("x.py", "s")] [])]),
      Found.path f = ["A"] :=
  (c4_discovery_characterization (dir [] [("A", dir [("x.py", "s")] [])])
    ["A"]).mpr rfl

/-- C8: structural kind inference is the priority-ordered pure function of
folder contents the claim describes — a non-`__init__` `.py` file gives
`action` regardless of other files; otherwise `settings.json` or
`prompts.json` gives `agent`; otherwise `io_nodes.json` or `nodes.json`
gives `flow`; otherwise the kind is unknown (`none`) — and, in any tree
with unique sibling names (as on a real filesystem), every entry
discovery reports resolves to a folder whose inferred kind is exactly the
reported kind, so a folder whose kind is unknown is skipped: its path is
never reported (and inference is a total function, never an error). -/
theorem c8_detect_priority :
    (∀ d : Dir,
      detect_component_type d =
        (if d.files.any (fun q => strEndsWith q.1 ".py" && q.1 != "__init__.py")
         then some "action"
         else if d.hasFile "settings.json" || d.hasFile "prompts.json"
         then some "agent"
         else if d.hasFile "io_nodes.json" || d.hasFile "nodes.json"
         then some "flow"
         else none)) ∧
    (∀ (root : Dir) (f : Found), uniqNames root = true →
      f ∈ find_all_components root →
      ∃ sub : Dir, dirAt root (Found.path f) = some sub ∧
        detect_component_type sub = some f.comp_type) ∧
    (∀ (root : Dir) (p : List String) (sub : Dir), uniqNames root = true →
      dirAt root p = some sub → detect_component_type sub = none →
      ¬ ∃ f ∈ find_all_components root, Found.path f = p) := by
  refine ⟨?_, ?_, ?_⟩
  · intro d
    rw [detect_component_type, find_source_file, find?_isSome_eq_any]
    by_cases h1 : d.files.any (fun q => strEndsWith q.1 ".py" && q.1 != "__init__.py")
    · rw [if_pos h1, if_pos h1]
    · rw [if_neg h1, if_neg h1]
      by_cases h2 : d.hasFile "settings.json" || d.hasFile "prompts.json"
      · rw [if_pos h2, if_pos h2]
      · rw [if_neg h2, if_neg h2]
        by_cases h3 : d.hasFile "io_nodes.json"
        · rw [if_pos h3, if_pos (by simp [h3])]
        · rw [if_neg h3]
          by_cases h4 : d.hasFile "nodes.json"
          · rw [if_pos h4, if_pos (by simp [h4])]
          · rw [if_neg h4, if_neg (by simp [h3, h4])]
  · intro root f hu hf
    obtain ⟨q, sub, hpath, hat, hdet⟩ := scanDir_found_folder root [] 0 f hu hf
    refine ⟨sub, ?_, hdet⟩
    rw [hpath]
    simpa using hat
  · rintro root p sub hu hat hnone ⟨f, hf, hp⟩
    obtain ⟨q, sub2, hpath, hat2, hdet2⟩ := scanDir_found_folder root [] 0 f hu hf
    have hat3 : dirAt root p = some sub2 := by
      rw [← hp, hpath]
      simpa using hat2
    rw [hat] at hat3
    have : sub = sub2 := by simpa using hat3
    rw [← this, hnone] at hdet2
    exact Option.noConfusion hdet2

/-- Witness for C8: the priority equation at a folder holding both a
source file and composite markers; the entry-to-folder tie at a concrete
discovered flow; and the skip of a concrete unknown-kind folder. -/
theorem c8_detect_priority_witness :
    detect_component_type (dir [("x.py", "s"), ("nodes.json", "{}")] []) =
      some "action" ∧
    (∃ sub : Dir,
      dirAt (dir [] [("A", dir [("nodes.json", "{}")] [])])
          (Found.path ⟨["A"], none, "flow"⟩) = some sub ∧
        detect_component_type sub =
          some (Found.comp_type ⟨["A"], none, "flow"⟩)) ∧
    ¬ ∃ f ∈ find_all_components (dir [] [("U", dir [("notes.txt", "n")] [])]),
        Found.path f = ["U"] := by
  refine ⟨?_, ?_, ?_⟩
  · rw [c8_detect_priority.1 (dir [("x.py", "s"), ("nodes.json", "{}")] [])]
    rfl
  · exact c8_detect_priority.2.1 (dir [] [("A", dir [("nodes.json", "{}")] [])])
      ⟨["A"], none, "flow"⟩ rfl
      (by rw [show find_all_components (dir [] [("A", dir [("nodes.json", "{}")] [])]) =
          [⟨["A"], none, "flow"⟩] from rfl]
          exact List.mem_cons_self _ _)
  · exact c8_detect_priority.2.2 (dir [] [("U", dir [("notes.txt", "n")] [])])
      ["U"] (dir [("notes.txt", "n")] []) rfl rfl rfl

/-- Witness instantiating C10 at a concrete name. -/
theorem c10_sanitize_name_wellformed_witness :
    sanitize_name (sanitize_name "  a**b  c  ") = sanitize_name "  a**b  c  " ∧
    sanitize_name "  a**b  c  " ≠ "" :=
  ⟨(c10_sanitize_name_wellformed "  a**b  c  ").1,
   (c10_sanitize_name_wellformed "  a**b  c  ").2.1⟩



/-- C7: modifier path fallback.  For a binding whose exact path is not in
the node→folder index: with a non-empty modifier list, the binding is
written into the folder of the longest proper prefix present in the index
(when that folder exists on disk); with no mapped prefix at all, the
binding is silently dropped. -/
theorem c7_modifier_path_fallback (nodeMap : List (String × List String))
    (dirExists : List String → Bool) (path : String) (mods : PyJson) :
    (∀ (fld : List String) (j : Nat),
      mods.truthy = true →
      nodeMap.lookup path = none →
      1 ≤ j → j ≤ (pySplitSlash path).length →
      nodeMap.lookup (joinSep "/" ((pySplitSlash path).take j)) = some fld →
      (∀ k, j < k → k ≤ (pySplitSlash path).length →
        nodeMap.lookup (joinSep "/" ((pySplitSlash path).take k)) = none) →
      dirExists fld = true →
      resolveModTarget nodeMap path = some fld ∧
        distribute_modifiers nodeMap dirExists [(path, mods)] =
          [(fld, dumpsInd2 mods)]) ∧
    ((∀ k, 1 ≤ k → k ≤ (pySplitSlash path).length →
        nodeMap.lookup (joinSep "/" ((pySplitSlash path).take k)) = none) →
      nodeMap.lookup path = none →
      distribute_modifiers nodeMap dirExists [(path, mods)] = []) := by
  constructor
  · intro fld j hmods hexact hj1 hjle hfound habove hex
    have hres : resolveModTarget nodeMap path = some fld := by
      rw [resolveModTarget, hexact]
      exact resolveLoop_found nodeMap (pySplitSlash path) j fld hj1 hfound
        (pySplitSlash path).length hjle habove
    refine ⟨hres, ?_⟩
    rw [distribute_modifiers, List.foldl_cons, List.foldl_nil]
    rw [hmods]
    simp only [Bool.not_true, Bool.false_eq_true, if_false]
    rw [hres]
    simp [hex]
  · intro hnone hexact
    have hres : resolveModTarget nodeMap path = none := by
      rw [resolveModTarget, hexact]
      exact resolveLoop_none nodeMap (pySplitSlash path)
        (pySplitSlash path).length hnone
    rw [distribute_modifiers, List.foldl_cons, List.foldl_nil]
    by_cases hmods : mods.truthy
    · rw [hmods]
      simp only [Bool.not_true, Bool.false_eq_true, if_false]
      rw [hres]
    · rw [Bool.eq_false_iff.mpr hmods]
      simp

/-- Witness for C7 at the claim's concrete instance: a binding at
`flowA/toolB` with only `flowA` indexed is written into `flowA`'s
folder. -/
theorem c7_modifier_path_fallback_witness :
    resolveModTarget [("flowA", ["FA"])] "flowA/toolB" = some ["FA"] ∧
    distribute_modifiers [("flowA", ["FA"])] (fun _ => true)
        [("flowA/toolB", jarr [.str "m"])] =
      [(["FA"], dumpsInd2 (jarr [.str "m"]))] :=
  (c7_modifier_path_fallback [("flowA", ["FA"])] (fun _ => true) "flowA/toolB"
    (jarr [.str "m"])).1 ["FA"] 1 rfl rfl (by decide) (by decide) rfl
    (by intro k hk1 hk2
        have hlen : (pySplitSlash "flowA/toolB").length = 2 := rfl
        rw [hlen] at hk2
        have hk : k = 2 := by omega
        subst hk
        rfl)
    rfl



set_option maxRecDepth 4000 in
/-- C1 (code bug): evaluating the pipeline at a pulled one-flow project.
Pull stores `checksum(json.dumps(nodes_clean))` in the sync state, but
push recomputes `checksum(json.dumps(spec))` over the whole reconstructed
flow record, so the two checksums differ even with no local edit; and
since pull writes no `.triform.json` sidecar, the immediate push cannot
even reach the checksum comparison — it classifies the pulled folder as
pending-new (`new_components`), not `unchanged`. -/
theorem c1_roundtrip_code_bug :
    (c1Pull.map (fun w => (w.entry.getD "checksum" PyJson.null).asStr)).isSome
      = true ∧
    ((read_flow_folder c1Folder "F").toOption.map (fun t => t.2.2)).isSome
      = true ∧
    (read_flow_folder c1Folder "F").toOption.map (fun t => t.2.2) ≠
      c1Pull.map (fun w => (w.entry.getD "checksum" PyJson.null).asStr) ∧
    pushComponentsPhase trivialOracle false false c1Root c1Sync =
      .ok { results := { new_components := ["F"] }, sync_components := c1Sync,
            sidecars := [], calls := [] } :=
  ⟨rfl, rfl, by decide, rfl⟩


set_option maxRecDepth 4000 in
/-- C2 counterexample: two local flow states that differ only in the JSON
key order of the children-definition (`{"a": 1, "b": 2}` against
`{"b": 2, "a": 1}`) produce different content checksums, because
`json.dumps` preserves the parsed key order (no `sort_keys`). -/
theorem c2_keyorder_counterexample :
    (read_flow_folder c2DirA "F").toOption.map (fun t => t.2.2) ≠
      (read_flow_folder c2DirB "F").toOption.map (fun t => t.2.2) ∧
    ((read_flow_folder c2DirA "F").toOption.map (fun t => t.2.2)).isSome
      = true := by
  refine ⟨by decide, rfl⟩

/-- C2 (amended): the composite checksum is computed over the parsed
children-definition serialized with preserved key order — two flow states
whose other files agree and whose `nodes.json` parses to the same value
(so in particular states differing only in insignificant whitespace)
yield identical reconstructions and checksums; key order, however, is
part of the parsed value and perturbs the checksum (see the
counterexample). -/
theorem c2_checksum_whitespace_insensitive (d1 d2 : Dir) (name : String)
    (hreadme : d1.getFile? "readme.md" = d2.getFile? "readme.md")
    (hio : d1.getFile? "io.json" = d2.getFile? "io.json")
    (hion : d1.getFile? "io_nodes.json" = d2.getFile? "io_nodes.json")
    (hreq : d1.getFile? "requirements.json" = d2.getFile? "requirements.json")
    (hnodes : loadFileStrict d1 "nodes.json" = loadFileStrict d2 "nodes.json") :
    read_flow_folder d1 name = read_flow_folder d2 name := by
  have hio2 : loadFileStrict d1 "io.json" = loadFileStrict d2 "io.json" := by
    rw [loadFileStrict, loadFileStrict, hio]
  have hion2 : loadFileStrict d1 "io_nodes.json" =
      loadFileStrict d2 "io_nodes.json" := by
    rw [loadFileStrict, loadFileStrict, hion]
  have hreq2 : loadFileStrict d1 "requirements.json" =
      loadFileStrict d2 "requirements.json" := by
    rw [loadFileStrict, loadFileStrict, hreq]
  unfold read_flow_folder readIo readIntention
  rw [hreadme, hio2, hion2, hreq2, hnodes]

/-- Witness for C2 (amended): whitespace-only reformatting of the
children-definition leaves the reconstruction (hence checksum)
unchanged. -/
theorem c2_checksum_whitespace_insensitive_witness :
    read_flow_folder c2DirA "F" = read_flow_folder c2DirC "F" :=
  c2_checksum_whitespace_insensitive c2DirA c2DirC "F" rfl rfl rfl rfl rfl

set_option maxRecDepth 4000 in
/-- C3 counterexample: pushing a project with one tracked action folder
whose `io.json` is present but unparseable raises `JSONDecodeError` out
of the per-folder loop — the push aborts instead of completing with a
summary. -/
theorem c3_invalid_json_aborts :
    pushComponentsPhase trivialOracle false false c3Root .nil =
      .error "JSONDecodeError: io.json" := rfl

/-- C3 (amended): only the identity sidecar `.triform.json` treats
unparseable JSON as absence; a structured file such as `io.json` that is
present but unparseable raises out of the reader and aborts the
per-folder loop. -/
theorem c3_sidecar_tolerant_others_fatal (d : Dir) (name t : String) :
    (d.getFile? ".triform.json" = some t → loads t = none →
      read_triform_json d = none) ∧
    (d.getFile? "io.json" = some t → loads t = none →
      read_action_folder d name = .error "JSONDecodeError: io.json") := by
  constructor
  · intro h1 h2
    rw [read_triform_json, h1]
    exact h2
  · intro h1 h2
    unfold read_action_folder readIo loadFileStrict
    rw [h1]
    dsimp only
    rw [h2]
    rfl

/-- Witness for C3 (amended) at concrete unparseable files. -/
theorem c3_sidecar_tolerant_others_fatal_witness :
    read_triform_json (dir [(".triform.json", "\x7b")] []) = none ∧
    read_action_folder (dir [("main.py", "x"), ("io.json", "\x7b")] []) "X" =
      .error "JSONDecodeError: io.json" :=
  ⟨(c3_sidecar_tolerant_others_fatal (dir [(".triform.json", "\x7b")] []) "X"
      "\x7b").1 rfl rfl,
   (c3_sidecar_tolerant_others_fatal
      (dir [("main.py", "x"), ("io.json", "\x7b")] []) "X" "\x7b").2 rfl rfl⟩

/-- C5: a discovered folder with no identity sidecar (its entry carries
`none`) is, when creation is not requested, only appended to
`new_components`: the loop state is otherwise untouched — no remote call
is traced, no sidecar is recorded, updated/created stay as they were. -/
theorem c5_new_component_safety (api : ApiOracle) (force : Bool)
    (checksum_map : List (PyJson × PyJson)) (root : Dir) (st : LoopSt)
    (path : List String) (ctype : String) :
    (∀ d : Dir, d.getFile? ".triform.json" = none → read_triform_json d = none) ∧
    processComponent api force false checksum_map root st ⟨path, none, ctype⟩ =
      .ok { st with results.new_components :=
        st.results.new_components ++ [joinSep "/" path] } := by
  constructor
  · intro d h
    rw [read_triform_json, h]
  · rfl

/-- Witness for C5 at a concrete pulled folder without a sidecar. -/
theorem c5_new_component_safety_witness :
    read_triform_json (dir [("x.py", "s")] []) = none ∧
    processComponent trivialOracle false false []
        (dir [] [("A", dir [("x.py", "s")] [])]) {} ⟨["A"], none, "action"⟩ =
      .ok { results := { new_components := ["A"] } } :=
  ⟨(c5_new_component_safety trivialOracle false [] (dir [] []) {} [] "").1
      (dir [("x.py", "s")] []) rfl,
   by rw [(c5_new_component_safety trivialOracle false []
        (dir [] [("A", dir [("x.py", "s")] [])]) {} ["A"] "action").2]
      rfl⟩

set_option maxRecDepth 4000 in
/-- C9 (code bug): the watcher keys component tracking on `meta.json`
siblings, but the pull writers never create a `meta.json` (and push
recognizes folders by `detect_component_type`, not `meta.json`), so a
pulled action folder — recognized as a component everywhere else — has
none of its files in the tracked set: only project-level files are
tracked. -/
theorem c9_watcher_misses_components :
    detect_component_type c9Folder = some "action" ∧
    c9Folder.hasFile "greet.py" = true ∧
    getTrackedFiles c9Root = [["proj.env"], ["readme.md"], ["requirements.json"]] ∧
    ["greet", "greet.py"] ∉ getTrackedFiles c9Root := by
  refine ⟨rfl, rfl, rfl, by decide⟩


end Triform
